import Mathlib

/-!
Verification of the dndrpg rules-resolution engine against its design
specification.

The definitions below are a shallow embedding of the Python sources under
src/dndrpg/engine/.  Python floats are modelled as rationals, Python ints as
Lean integers, dict objects as insertion-ordered association lists, and the
in-place mutation of the game state as explicit state passing.  The
third-party expression parser (py_expression_eval) is modelled as an oracle
parameter returning an exceptional or numeric outcome; a raised Python
exception is modelled by Except.error.

Pieces of the repository that are referenced by the engine sources but are
absent from them (the d20/d100 helpers imported from engine/dice.py, the
DREntry record and the immunity/resistance/vulnerability/DR fields of
Entity imported from engine/models.py) are modelled from the
specification; each such definition says so in its doc comment.
-/

/-- Insertion-ordered association-list lookup, the model of a Python dict
read (dict.get / dict[k]). -/
def alookup {β : Type} : List (String × β) → String → Option β
  | [], _ => none
  | (k1, v) :: rest, k => if k1 = k then some v else alookup rest k

/-- Association-list write, the model of a Python dict assignment: updates
the first entry with the key in place, or appends a fresh entry at the end
(Python dicts keep insertion order). -/
def aset {β : Type} : List (String × β) → String → β → List (String × β)
  | [], k, v => [(k, v)]
  | (k1, v1) :: rest, k, v => if k1 = k then (k, v) :: rest else (k1, v1) :: aset rest k v

/-- Association-list key removal, the model of dict.pop(k, default). -/
def aremove {β : Type} : List (String × β) → String → List (String × β)
  | [], _ => []
  | (k1, v1) :: rest, k => if k1 = k then rest else (k1, v1) :: aremove rest k

/-- Floor of a rational as an integer. -/
def floorQ (q : ℚ) : Int := ⌊q⌋

/-- Python's int() conversion of a float: truncation toward zero. -/
def pyInt (q : ℚ) : Int := if 0 ≤ q then floorQ q else - floorQ (-q)

/-- Python's str.startswith on the character list (the builtin
String.startsWith is not kernel-reducible). -/
def strStartsWith (s pre : String) : Bool := pre.data.isPrefixOf s.data

/-- Python's round() on a float with no digits argument: round half to even
(banker's rounding). -/
def pyRound (q : ℚ) : Int :=
  let f := floorQ q
  let frac : ℚ := q - (f : ℚ)
  if frac < 1/2 then f
  else if 1/2 < frac then f + 1
  else if f % 2 = 0 then f else f + 1

/-! ## Modifier stacking resolver (engine/modifiers_runtime.py) -/

/-- An evaluated modifier, from modifiers_runtime.EvaluatedMod.  Values are
Python floats, modelled as rationals. -/
structure EvaluatedMod where
  operator : String
  value : ℚ
  bonusType : Option String
  sourceKey : Option String
  source_kind : String
  source_id : String
  source_name : String
deriving Repr, DecidableEq

/-- TYPED_STACK from modifiers_runtime.py: only dodge stacks by itself. -/
def TYPED_STACK : List String := ["dodge"]

/-- Delta contributed by an add/subtract modifier
(em.value if em.operator == "add" else -em.value). -/
def addDelta (em : EvaluatedMod) : ℚ :=
  if em.operator = "add" then em.value else -em.value

/-- Whether a modifier participates in the additive stacking pass. -/
def isAdditive (em : EvaluatedMod) : Bool :=
  em.operator = "add" ∨ em.operator = "subtract"

/-- Python max(vals) for a nonempty list, 0.0 for an empty one, as used for
the no-stack-highest policy (max(vals) if vals else 0.0). -/
def maxD : List ℚ → ℚ
  | [] => 0
  | x :: xs => xs.foldl max x

/-- Step 1 of apply_to_value: the last set/replace modifier overrides the
running value. -/
def setPass (base : ℚ) (mods : List EvaluatedMod) : ℚ :=
  mods.foldl
    (fun cur em => if em.operator = "set" ∨ em.operator = "replace" then em.value else cur)
    base

/-- Bonus types present among additive modifiers, each once.  The Python
code groups into a dict in first-insertion order; since each group's
contribution is summed, any duplicate-free enumeration of the keys yields
the same total. -/
def typedKeys (mods : List EvaluatedMod) : List String :=
  (mods.filterMap (fun em => if isAdditive em then em.bonusType else none)).dedup

/-- Deltas of the additive modifiers carrying the given bonus type, in list
order. -/
def typedDeltas (mods : List EvaluatedMod) (t : String) : List ℚ :=
  (mods.filter (fun em => isAdditive em ∧ em.bonusType = some t)).map addDelta

/-- Step 2a of apply_to_value: typed additive total.  Dodge groups sum; every
other type contributes only its highest delta. -/
def typedTotal (mods : List EvaluatedMod) : ℚ :=
  (typedKeys mods).foldl
    (fun acc t =>
      acc + (if t ∈ TYPED_STACK then (typedDeltas mods t).sum else maxD (typedDeltas mods t)))
    0

/-- Source keys present among untyped additive modifiers, each once. -/
def untypedKeys (mods : List EvaluatedMod) : List (Option String) :=
  (mods.filterMap
    (fun em => if isAdditive em ∧ em.bonusType = none then some em.sourceKey else none)).dedup

/-- Deltas of the untyped additive modifiers carrying the given source key. -/
def untypedDeltas (mods : List EvaluatedMod) (sk : Option String) : List ℚ :=
  (mods.filter (fun em => isAdditive em ∧ em.bonusType = none ∧ em.sourceKey = sk)).map addDelta

/-- Step 2b of apply_to_value: untyped additive total.  Modifiers with no
source key all sum; modifiers sharing a source key contribute only the
highest delta per key. -/
def untypedTotal (mods : List EvaluatedMod) : ℚ :=
  (untypedKeys mods).foldl
    (fun acc sk =>
      acc + (match sk with
             | none => (untypedDeltas mods none).sum
             | some _ => maxD (untypedDeltas mods sk)))
    0

/-- Step 3 of apply_to_value: the single multiplicative factor.  A divide
modifier with value 0 leaves the factor unchanged. -/
def mulFactor (mods : List EvaluatedMod) : ℚ :=
  mods.foldl
    (fun f em =>
      if em.operator = "multiply" then f * em.value
      else if em.operator = "divide" ∧ em.value ≠ 0 then f * (1 / em.value)
      else f)
    1

/-- Step 4 of apply_to_value: the intersected lower bound (greatest of the
min modifiers), if any. -/
def minBound (mods : List EvaluatedMod) : Option ℚ :=
  mods.foldl
    (fun b em =>
      if em.operator = "min" then
        some (match b with | none => em.value | some x => max x em.value)
      else b)
    none

/-- Step 4 of apply_to_value: the intersected upper bound (least of the max
modifiers), if any. -/
def maxBound (mods : List EvaluatedMod) : Option ℚ :=
  mods.foldl
    (fun b em =>
      if em.operator = "max" then
        some (match b with | none => em.value | some x => min x em.value)
      else b)
    none

/-- Step 5 of apply_to_value: every cap/clamp modifier acts as an upper cap,
in list order. -/
def capPass (cur : ℚ) (mods : List EvaluatedMod) : ℚ :=
  mods.foldl
    (fun c em => if em.operator = "cap" ∨ em.operator = "clamp" then min c em.value else c)
    cur

/-- ModifiersEngine.apply_to_value: stacking and operator ordering.  Mirrors
the five numbered steps of the source, including the early return on an
empty modifier list. -/
def apply_to_value (base : ℚ) (mods : List EvaluatedMod) : ℚ :=
  if mods = [] then base
  else
    let cur0 := setPass base mods
    let cur1 := cur0 + typedTotal mods + untypedTotal mods
    let cur2 := cur1 * mulFactor mods
    let cur3 := match minBound mods with
                | none => cur2
                | some mb => max cur2 mb
    let cur4 := match maxBound mods with
                | none => cur3
                | some mb => min cur3 mb
    capPass cur4 mods

/-- The modifier of the pair with the larger value (the first one on ties),
used to phrase the claim that only the highest same-typed bonus counts. -/
def maxMod (a b : EvaluatedMod) : EvaluatedMod :=
  if b.value ≤ a.value then a else b

/-! ## Claims C1 and C9: stacking algebra of apply_to_value -/

/-- C1: for every numeric base and every pair of additive modifiers sharing
a bonus type other than dodge, apply_to_value(base, [A, B]) equals
apply_to_value(base, [max(A, B)]) — only the highest contribution of the
type counts; two dodge-typed modifiers, and two untyped additive modifiers
with distinct source keys, stack to base + A + B. -/
theorem apply_to_value_stacking (base : ℚ) (A B : EvaluatedMod)
    (hA : A.operator = "add") (hB : B.operator = "add") :
    (∀ t : String, A.bonusType = some t → B.bonusType = some t → t ≠ "dodge" →
      apply_to_value base [A, B] = apply_to_value base [maxMod A B]) ∧
    (A.bonusType = some "dodge" → B.bonusType = some "dodge" →
      apply_to_value base [A, B] = base + A.value + B.value) ∧
    (A.bonusType = none → B.bonusType = none → A.sourceKey ≠ B.sourceKey →
      apply_to_value base [A, B] = base + A.value + B.value) := by
  obtain ⟨opA, a, btA, skA, pA1, pA2, pA3⟩ := A
  obtain ⟨opB, b, btB, skB, pB1, pB2, pB3⟩ := B
  simp only at hA hB
  subst hA hB
  refine ⟨?_, ?_, ?_⟩
  · rintro t rfl rfl ht
    simp [apply_to_value, setPass, typedTotal, typedKeys, typedDeltas, untypedTotal,
      untypedKeys, mulFactor, minBound, maxBound, capPass, maxD, addDelta, isAdditive,
      maxMod, TYPED_STACK, ht]
    rcases le_total b a with h | h
    · simp [h, max_eq_left h, addDelta]
    · rcases eq_or_lt_of_le h with rfl | hlt
      · simp [addDelta]
      · simp [not_le.mpr hlt, max_eq_right (le_of_lt hlt), addDelta]
  · rintro rfl rfl
    simp [apply_to_value, setPass, typedTotal, typedKeys, typedDeltas, untypedTotal,
      untypedKeys, mulFactor, minBound, maxBound, capPass, maxD, addDelta, isAdditive,
      TYPED_STACK]
    ring
  · rintro rfl rfl hsk
    simp only at hsk
    rcases hskA : skA with _ | kA <;> rcases hskB : skB with _ | kB
    · simp [hskA, hskB] at hsk
    · subst hskA hskB
      simp [apply_to_value, setPass, typedTotal, typedKeys, typedDeltas, untypedTotal,
        untypedKeys, mulFactor, minBound, maxBound, capPass, maxD, addDelta, isAdditive,
        TYPED_STACK]
      simp [untypedDeltas, isAdditive, addDelta]
      ring
    · subst hskA hskB
      simp [apply_to_value, setPass, typedTotal, typedKeys, typedDeltas, untypedTotal,
        untypedKeys, mulFactor, minBound, maxBound, capPass, maxD, addDelta, isAdditive,
        TYPED_STACK]
      simp [untypedDeltas, isAdditive, addDelta]
      ring
    · subst hskA hskB
      have hkk : kA ≠ kB := by simpa using hsk
      simp [apply_to_value, setPass, typedTotal, typedKeys, typedDeltas, untypedTotal,
        untypedKeys, mulFactor, minBound, maxBound, capPass, maxD, addDelta, isAdditive,
        TYPED_STACK, hkk, Ne.symm hkk]
      simp [untypedDeltas, isAdditive, addDelta, hkk, Ne.symm hkk]
      ring

/-- A sample typed luck bonus used by the stacking witnesses. -/
def wmodA : EvaluatedMod := ⟨"add", 3, some "luck", none, "effect", "eff.a", "A"⟩

/-- A second sample typed luck bonus used by the stacking witnesses. -/
def wmodB : EvaluatedMod := ⟨"add", 5, some "luck", none, "effect", "eff.b", "B"⟩

/-- Witness for C1 at base 2 and two luck bonuses of 3 and 5. -/
theorem apply_to_value_stacking_witness :
    apply_to_value 2 [wmodA, wmodB] = apply_to_value 2 [maxMod wmodA wmodB] :=
  (apply_to_value_stacking 2 wmodA wmodB rfl rfl).1 "luck" rfl rfl (by decide)

/-- C9: a divide modifier whose value is 0 is skipped by apply_to_value: the
multiplicative factor is unchanged, the result equals the result with that
modifier absent, and no exception is raised (the embedding is total). -/
theorem apply_to_value_divide_zero_skipped (base : ℚ) (em : EvaluatedMod)
    (l1 l2 : List EvaluatedMod)
    (hop : em.operator = "divide") (hval : em.value = 0) :
    apply_to_value base (l1 ++ em :: l2) = apply_to_value base (l1 ++ l2) := by
  have hset : setPass base (l1 ++ em :: l2) = setPass base (l1 ++ l2) := by
    simp [setPass, List.foldl_append, hop]
  have hadd : isAdditive em = false := by simp [isAdditive, hop]
  have hkeys : typedKeys (l1 ++ em :: l2) = typedKeys (l1 ++ l2) := by
    simp [typedKeys, List.filterMap_append, hadd]
  have hdeltas : ∀ t, typedDeltas (l1 ++ em :: l2) t = typedDeltas (l1 ++ l2) t := by
    intro t
    simp [typedDeltas, List.filter_append, hadd]
  have htyped : typedTotal (l1 ++ em :: l2) = typedTotal (l1 ++ l2) := by
    unfold typedTotal
    rw [hkeys]
    apply List.foldl_ext
    intro acc t _
    rw [hdeltas]
  have hukeys : untypedKeys (l1 ++ em :: l2) = untypedKeys (l1 ++ l2) := by
    simp [untypedKeys, List.filterMap_append, hadd]
  have hudeltas : ∀ sk, untypedDeltas (l1 ++ em :: l2) sk = untypedDeltas (l1 ++ l2) sk := by
    intro sk
    simp [untypedDeltas, List.filter_append, hadd]
  have huntyped : untypedTotal (l1 ++ em :: l2) = untypedTotal (l1 ++ l2) := by
    unfold untypedTotal
    rw [hukeys]
    apply List.foldl_ext
    intro acc sk _
    rcases sk with _ | k <;> simp [hudeltas]
  have hmul : mulFactor (l1 ++ em :: l2) = mulFactor (l1 ++ l2) := by
    simp [mulFactor, List.foldl_append, hop, hval]
  have hmin : minBound (l1 ++ em :: l2) = minBound (l1 ++ l2) := by
    simp [minBound, List.foldl_append, hop]
  have hmax : maxBound (l1 ++ em :: l2) = maxBound (l1 ++ l2) := by
    simp [maxBound, List.foldl_append, hop]
  have hcap : ∀ c, capPass c (l1 ++ em :: l2) = capPass c (l1 ++ l2) := by
    intro c
    simp [capPass, List.foldl_append, hop]
  rcases hnil : l1 ++ l2 with _ | ⟨x, xs⟩
  · rcases List.append_eq_nil.mp hnil with ⟨rfl, rfl⟩
    simp [apply_to_value, setPass, typedTotal, typedKeys, typedDeltas, untypedTotal,
      untypedKeys, mulFactor, minBound, maxBound, capPass, hop, hadd, hval, isAdditive]
  · rw [← hnil]
    have h1 : l1 ++ em :: l2 ≠ [] := by simp
    have h2 : l1 ++ l2 ≠ [] := by rw [hnil]; simp
    simp only [apply_to_value, if_neg h1, if_neg h2, hset, htyped, huntyped, hmul, hmin,
      hmax, hcap]

/-- A divide-by-zero modifier used by the witness for C9. -/
def wmodDiv0 : EvaluatedMod := ⟨"divide", 0, none, none, "effect", "eff.d", "D"⟩

/-- Witness for C9: dropping a divide-by-zero modifier between two luck
bonuses does not change the resolved value. -/
theorem apply_to_value_divide_zero_skipped_witness :
    apply_to_value 2 ([wmodA] ++ wmodDiv0 :: [wmodB]) = apply_to_value 2 ([wmodA] ++ [wmodB]) :=
  apply_to_value_divide_zero_skipped 2 wmodDiv0 [wmodA] [wmodB] rfl rfl

/-! ## Schema records (engine/schema_models.py), restricted to the fields the
verified engine operations read -/

/-- An authored expression value (schema_models.Expr is str | int | float):
either a numeric literal or a formula string. -/
inductive ExprV where
  | num (v : ℚ)
  | formula (s : String)
deriving Repr, DecidableEq

/-- Outcome of handing a formula string to the third-party expression parser
with a given actor/target context.  Except.error models a raised Python
exception (unknown identifier, malformed syntax, bad call). -/
def EvalOutcome : Type := Except Unit ℚ

/-- DurationSpec (type / value / formula). -/
structure DurationSpec where
  type : String
  value : Option Int := none
  formula : Option String := none
deriving Repr, DecidableEq

/-- SRGate (applies flag). -/
structure SRGate where
  applies : Bool := true
deriving Repr, DecidableEq

/-- SaveGate: save type, DC expression and branch. -/
structure SaveGate where
  type : String
  dcExpression : String
  effect : String := "negates"
deriving Repr, DecidableEq

/-- AttackGate: attack mode and AC variant. -/
structure AttackGate where
  mode : String := "none"
  ac_type : Option String := none
deriving Repr, DecidableEq

/-- Gates: the three optional gate declarations. -/
structure Gates where
  sr : Option SRGate := none
  save : Option SaveGate := none
  attack : Option AttackGate := none
deriving Repr, DecidableEq

/-- A value as authored on a schema Modifier (Expr or a dict; a dict with an
expr key is a formula, any other dict shape defaults to 0). -/
inductive ModValue where
  | num (v : ℚ)
  | formula (s : String)
  | otherDict
deriving Repr, DecidableEq

/-- Schema Modifier: target path, operator, value, optional bonus type and
source key. -/
structure Modifier where
  targetPath : String
  operator : String
  value : ModValue
  bonusType : Option String := none
  sourceKey : Option String := none
deriving Repr, DecidableEq

/-- Tagged operation records, one constructor per op kind dispatched by
EffectsEngine.execute_operations. -/
inductive Operation where
  | damage (amount : ExprV) (damage_type : String) (counts_as_magic : Option Bool)
      (counts_as_material : Option (List String)) (counts_as_alignment : Option (List String))
  | heal_hp (amount : ExprV) (nonlethal_only : Bool)
  | temp_hp (amount : ExprV)
  | ability_damage (ability : String) (amount : ExprV)
  | ability_drain (ability : String) (amount : ExprV)
  | condition_apply (id : String) (duration : Option DurationSpec) (stacksFlag : Option Bool)
  | condition_remove (id : String)
  | resource_create (resource_id : String) (owner_scope : Option String)
      (initial_current : Option ExprV)
  | resource_spend (resource_id : String) (amount : ExprV)
  | resource_restore (resource_id : String) (amount : Option ExprV) (to_max : Bool)
  | resource_set (resource_id : String) (current : ExprV)
  | zone_create (zone_id : Option String) (name : Option String)
  | zone_destroy (zone_id : Option String) (zone_instance_id : Option String)
  | save (type : String) (dc : ExprV)
  | other (op : String)
deriving Repr, DecidableEq

/-- EffectDefinition, restricted to the fields read by the gate evaluator and
the effect lifecycle (id, name, abilityType, duration, gates, operations,
modifiers); the remaining authored metadata fields are never read by the
verified operations. -/
structure EffectDefinition where
  id : String
  name : String
  abilityType : String := "Spell"
  duration : Option DurationSpec := none
  gates : Option Gates := none
  operations : List Operation := []
  modifiers : List Modifier := []
deriving Repr, DecidableEq

/-- ConditionDefinition, restricted to the fields read at apply time. -/
structure ConditionDefinition where
  id : String
  name : String
  tags : List String := []
  precedence : Option Int := none
  default_duration : Option DurationSpec := none
  modifiers : List Modifier := []
deriving Repr, DecidableEq

/-- CapacitySpec of a resource definition. -/
structure CapacitySpec where
  formula : ExprV
  cap : Option Int := none
  computeAt : Option String := some "attach"
deriving Repr, DecidableEq

/-- ResourceRefresh cadence and behavior. -/
structure ResourceRefresh where
  cadence : String
  behavior : String := "reset_to_max"
  increment_by : Option ExprV := none
deriving Repr, DecidableEq

/-- AbsorptionSpec of an ablative pool. -/
structure AbsorptionSpec where
  absorbTypes : List String := []
  absorbPerHit : Option Int := none
deriving Repr, DecidableEq

/-- ResourceDefinition, restricted to the fields read by the resource
engine. -/
structure ResourceDefinition where
  id : String
  name : Option String := none
  scope : String := "entity"
  capacity : CapacitySpec
  initial_current : Option ExprV := none
  refresh : Option ResourceRefresh := none
  absorption : Option AbsorptionSpec := none
  visibility : Option String := some "public"
  freezeOnAttach : Option Bool := none
deriving Repr, DecidableEq

/-! ## Actor model (engine/models.py) -/

/-- AbilityScore from models.py: base/temp/damage/drain. -/
structure AbilityScore where
  base : Int := 10
  temp : Int := 0
  damage : Int := 0
  drain : Int := 0
deriving Repr, DecidableEq

/-- AbilityScore.score(): max(0, base + temp - damage - drain). -/
def AbilityScore.score (a : AbilityScore) : Int :=
  max 0 (a.base + a.temp - a.damage - a.drain)

/-- The six ability scores. -/
structure Abilities where
  str_ : AbilityScore := {}
  dex : AbilityScore := {}
  con : AbilityScore := {}
  int_ : AbilityScore := {}
  wis : AbilityScore := {}
  cha : AbilityScore := {}
deriving Repr, DecidableEq

/-- Abilities.get(name): maps str/int onto the underscore-suffixed fields;
any other name falls back to charisma (getattr would raise in Python for a
name outside the six; content validation rules that out). -/
def Abilities.get (ab : Abilities) (name : String) : AbilityScore :=
  if name = "str" then ab.str_
  else if name = "dex" then ab.dex
  else if name = "con" then ab.con
  else if name = "int" then ab.int_
  else if name = "wis" then ab.wis
  else ab.cha

/-- Abilities.set replaces the named score (the model of in-place mutation
of the score object returned by Abilities.get). -/
def Abilities.set (ab : Abilities) (name : String) (sc : AbilityScore) : Abilities :=
  if name = "str" then { ab with str_ := sc }
  else if name = "dex" then { ab with dex := sc }
  else if name = "con" then { ab with con := sc }
  else if name = "int" then { ab with int_ := sc }
  else if name = "wis" then { ab with wis := sc }
  else { ab with cha := sc }

/-- Modelled from the spec: a damage-reduction entry ("a flat subtraction
from physical damage per attack, subject to bypass rules").  DREntry is
imported by engine/damage_runtime.py from engine/models.py but absent from
that file; the fields are the ones _dr_applies reads. -/
structure DREntry where
  value : Int
  bypass_magic : Bool := false
  bypass_materials : Option (List String) := none
  bypass_alignments : Option (List String) := none
  bypass_weapon_types : Option (List String) := none
deriving Repr, DecidableEq

/-- Entity from models.py, restricted to the fields the verified operations
read, together with the fields the damage pipeline and SR gate read which
are absent from models.py and are modelled from the spec (the Actor data
model declares immunities / resistances / vulnerabilities / a
damage-reduction list, and the SR gate reads spell_resistance via getattr
with default 0). -/
structure Entity where
  id : String
  name : String
  level : Int := 1
  abilities : Abilities := {}
  hp_max : Int := 8
  hp_current : Int := 8
  nonlethal_damage : Int := 0
  base_attack_bonus : Int := 0
  base_fort : Int := 0
  base_ref : Int := 0
  base_will : Int := 0
  speed_land : Int := 30
  immunities : List String := []
  energy_resist : List (String × Int) := []
  dr : List DREntry := []
  vulnerabilities : List (String × ℚ) := []
  spell_resistance : Int := 0
deriving Repr, DecidableEq

/-! ## Runtime instances -/

/-- EffectInstance from engine/effects_runtime.py. -/
structure EffectInstance where
  instance_id : String
  definition_id : String
  name : String
  abilityType : String
  source_entity_id : String
  target_entity_id : String
  duration_type : String := "instantaneous"
  remaining_rounds : Option Int := none
  active : Bool := true
  suppressed : Bool := false
  started_at_round : Int := 0
deriving Repr, DecidableEq

/-- ConditionInstance from engine/conditions_runtime.py. -/
structure ConditionInstance where
  instance_id : String
  definition_id : String
  name : String
  source_entity_id : String
  target_entity_id : String
  precedence : Option Int := none
  tags : List String := []
  duration_type : String := "instantaneous"
  remaining_rounds : Option Int := none
  active : Bool := true
  suppressed : Bool := false
  applied_at_round : Int := 0
deriving Repr, DecidableEq

/-- ResourceState from engine/resources_runtime.py. -/
structure ResourceState where
  state_id : String
  definition_id : Option String := none
  name : Option String := none
  owner_scope : String := "entity"
  owner_entity_id : Option String := none
  owner_effect_instance_id : Option String := none
  current : Int := 0
  max_computed : Int := 0
  capacity_computeAt : String := "attach"
  freezeOnAttach : Bool := false
  refresh : Option ResourceRefresh := none
  absorption : Option AbsorptionSpec := none
deriving Repr, DecidableEq

/-- RegisteredHook from engine/rulehooks_runtime.py, restricted to the
fields the registry indexes by. -/
structure RegisteredHook where
  hook_id : String
  scope : String
  priority : Int := 0
deriving Repr, DecidableEq

/-- RuleHooksRegistry state: the scope -> target-entity -> hooks index and
the reverse index parent-instance-id -> (scope, target, hook_id) entries. -/
structure HooksRegistry where
  by_scope : List (String × List (String × List RegisteredHook)) := []
  parent_index : List (String × List (String × String × String)) := []
deriving Repr, DecidableEq

/-- GameState from engine/state.py, restricted to the fields the verified
operations touch.  The last_trace attribute assigned by EffectsEngine.attach
is not a declared field of the source GameState and carries presentation
text only; it is left out of the model. -/
structure GameState where
  player : Entity
  log : List String := []
  active_effects : List (String × List EffectInstance) := []
  active_conditions : List (String × List ConditionInstance) := []
  round_counter : Int := 0
  resources : List (String × List ResourceState) := []
deriving Repr, DecidableEq

/-- ContentIndex from engine/loader.py: the validated definition records by
id. -/
structure ContentIndex where
  effects : List (String × EffectDefinition) := []
  conditions : List (String × ConditionDefinition) := []
  resources : List (String × ResourceDefinition) := []
deriving Repr, DecidableEq

/-! ## Expression-evaluation oracles and dice -/

/-- Oracles standing for the two out-of-component dependencies of the gate
evaluator and the operation executor: the resolved-stats computation of
ModifiersEngine.resolved_stats (a pure function of the modifier state) and
the third-party expression parser.  Proving a property for every oracle
value subsumes the concrete computations. -/
structure EngineOracles where
  statsAcTotal : Entity → Int
  statsAcTouch : Entity → Int
  statsAcFF : Entity → Int
  statsSaveFort : Entity → Int
  statsSaveRef : Entity → Int
  statsSaveWill : Entity → Int
  statsAttackMelee : Entity → Int
  statsAttackRanged : Entity → Int
  casterLevelOf : Entity → Int
  evalE : String → Option Entity → Option Entity → Except Unit ℚ
  evalRaw : ExprV → Entity → Except Unit ℚ

/-- Modelled from the spec: the d20 helper imported by gates_runtime.py from
engine/dice.py is absent from that file; the specification prescribes a
d20 roll from the engine's single pseudo-random source, modelled as reading
the next pre-drawn value from a stream (an exhausted stream yields 1, which
a real generator never produces). -/
def d20 : List Int → Int × List Int
  | [] => (1, [])
  | r :: rest => (r, rest)

/-- Modelled from the spec: the d100 helper, as for d20. -/
def d100 : List Int → Int × List Int
  | [] => (1, [])
  | r :: rest => (r, rest)

/-! ## Modifier evaluation (ModifiersEngine._eval_modifier) -/

/-- ModifiersEngine._eval_modifier: evaluates a schema modifier's value
against the actor/target context.  The try/except around the evaluation
turns any raised error into the value 0.0.  The second component is the
sequence of log/warning lines this path emits, which is empty in the
source (the function body contains no logging statement). -/
def eval_modifier (o : EngineOracles) (m : Modifier) (actor target : Option Entity)
    (source_kind source_id source_name : String) : Option EvaluatedMod × List String :=
  let val : ℚ :=
    match m.value with
    | .num v => v
    | .formula s =>
        match o.evalE s actor target with
        | .ok v => v
        | .error _ => 0
    | .otherDict => 0
  (some ⟨m.operator, val, m.bonusType, m.sourceKey, source_kind, source_id, source_name⟩, [])

/-! ## Gates evaluator (engine/gates_runtime.py) -/

/-- SRResult record. -/
structure SRResult where
  checked : Bool
  passed : Bool
  note : String
deriving Repr, DecidableEq

/-- SaveResult record. -/
structure SaveResult where
  attempted : Bool
  succeeded : Bool
  branch : Option String
  dc : Int
  roll : Int
  total : Int
  save_type : Option String
  note : String
deriving Repr, DecidableEq

/-- AttackResult record. -/
structure AttackResult where
  attempted : Bool
  hit : Bool
  crit : Bool
  crit_mult : Int
  ac_used : Int
  attack_total : Int
  roll : Int
  concealment_miss : Bool
  note : String
deriving Repr, DecidableEq

/-- GateOutcome record. -/
structure GateOutcome where
  allowed : Bool
  sr : SRResult
  save : SaveResult
  attack : AttackResult
  damage_scale : ℚ
  saved_flag : Bool
  crit_mult : Int
deriving Repr, DecidableEq

/-- GatesEngine.sr_gate: skipped unless declared applicable and the ability
type is Spell/Sp and the target has positive spell resistance; otherwise
d20 + caster level vs SR, with a natural 20 always passing. -/
def sr_gate (o : EngineOracles) (ed : EffectDefinition) (source target : Entity)
    (dice : List Int) : SRResult × List Int :=
  let applies :=
    match ed.gates with
    | none => false
    | some g => match g.sr with
                | none => false
                | some s => s.applies
  if applies = false then (⟨false, true, "SR:N/A"⟩, dice)
  else if ed.abilityType ≠ "Spell" ∧ ed.abilityType ≠ "Sp" then
    (⟨false, true, "SR:N/A (abilityType not Spell/Sp)"⟩, dice)
  else
    let sr_value := target.spell_resistance
    if sr_value ≤ 0 then (⟨false, true, "SR: target has none"⟩, dice)
    else
      let cl := o.casterLevelOf source
      let rd := d20 dice
      let roll := rd.1
      let total := roll + cl
      let passed := total ≥ sr_value ∨ roll = 20
      (⟨true, passed,
        "SR check d20(" ++ toString roll ++ ") + CL " ++ toString cl ++ " = " ++
          toString total ++ " vs SR " ++ toString sr_value ++
          (if passed then " -> pass" else " -> fail")⟩, rd.2)

/-- The resolved save total read from resolved_stats for the declared save
type (dict lookup with default 0). -/
def saveTotalFor (o : EngineOracles) (target : Entity) (stype : String) : Int :=
  if stype = "Fort" then o.statsSaveFort target
  else if stype = "Ref" then o.statsSaveRef target
  else if stype = "Will" then o.statsSaveWill target
  else 0

/-- The DC computation of GatesEngine.save_gate: a nonempty dcExpression is
evaluated (no handler, errors propagate), an absent one falls back to 0. -/
def save_dc_value (o : EngineOracles) (sg : SaveGate) (source target : Entity) :
    Except Unit Int :=
  if sg.dcExpression ≠ "" then
    match o.evalE sg.dcExpression (some source) (some target) with
    | .ok v => .ok (pyInt v)
    | .error e => .error e
  else .ok 0

/-- GatesEngine.save_gate: computes the DC (a nonempty dcExpression is
evaluated with no exception handler, so an evaluation error propagates out
of the gate — modelled by Except.error; an absent expression falls back to
0), rolls d20 + resolved save bonus, applies natural-1 auto-failure and
natural-20 auto-success, and reads the declared branch. -/
def save_gate (o : EngineOracles) (ed : EffectDefinition) (source target : Entity)
    (dice : List Int) : Except Unit (SaveResult × List Int) :=
  let sg? := match ed.gates with
             | none => none
             | some g => g.save
  match sg? with
  | none => .ok (⟨false, false, none, 0, 0, 0, none, "Save:N/A"⟩, dice)
  | some sg =>
    match save_dc_value o sg source target with
    | .error e => .error e
    | .ok dc_val =>
      let save_total := saveTotalFor o target sg.type
      let rd := d20 dice
      let roll := rd.1
      let total := roll + save_total
      let succeeded0 := roll = 20 ∨ total ≥ dc_val
      let succeeded := if roll = 1 then false else succeeded0
      let branch := if sg.effect = "" then "negates" else sg.effect
      .ok (⟨true, succeeded, some branch, dc_val, roll, total, some sg.type,
        sg.type ++ " save d20(" ++ toString roll ++ ") + " ++ toString save_total ++
          " = " ++ toString total ++ " vs DC " ++ toString dc_val ++
          (if succeeded then " -> success (" else " -> fail (") ++ branch ++ ")"⟩, rd.2)

/-- GatesEngine._concealment_pct: 50 when any active condition instance on
the target carries the invisible tag, else 0. -/
def concealment_pct (st : GameState) (target : Entity) : Int :=
  if ((alookup st.active_conditions target.id).getD []).any
       (fun inst => inst.tags.contains "invisible")
  then 50 else 0

/-- The AC variant chosen by the attack gate (normal/touch/flat-footed,
defaulting to normal). -/
def attack_ac_val (o : EngineOracles) (ag : AttackGate) (target : Entity) : Int :=
  let ac_type := ag.ac_type.getD "normal"
  if ac_type = "normal" then o.statsAcTotal target
  else if ac_type = "touch" then o.statsAcTouch target
  else if ac_type = "flat-footed" then o.statsAcFF target
  else o.statsAcTotal target

/-- The attack bonus chosen by the attack gate's mode (melee modes and the
fallback use the melee bonus, ranged modes the ranged bonus). -/
def attack_bonus (o : EngineOracles) (ag : AttackGate) (source : Entity) : Int :=
  if ag.mode = "melee" ∨ ag.mode = "melee_touch" then o.statsAttackMelee source
  else if ag.mode = "ranged" ∨ ag.mode = "ranged_touch" ∨ ag.mode = "ray" then
    o.statsAttackRanged source
  else o.statsAttackMelee source

/-- GatesEngine.attack_gate: natural 1 auto-misses; a concealment miss
chance is rolled when present; the attack hits when the total meets the
chosen AC or the natural roll is 20; a confirmation d20 is rolled only
inside the natural-20 threat branch, and the critical flag is set only
when that confirmation meets the AC or is itself a natural 20. -/
def attack_gate (o : EngineOracles) (st : GameState) (source target : Entity)
    (ag? : Option AttackGate) (dice : List Int) : AttackResult × List Int :=
  match ag? with
  | none => (⟨false, true, false, 1, 0, 0, 0, false, "Attack:N/A"⟩, dice)
  | some ag =>
    if ag.mode = "none" then (⟨false, true, false, 1, 0, 0, 0, false, "Attack:N/A"⟩, dice)
    else
      let ac_val := attack_ac_val o ag target
      let atk_bonus := attack_bonus o ag source
      let default_crit_mult : Int := 2
      let rd := d20 dice
      let roll := rd.1
      let dice1 := rd.2
      let total := roll + atk_bonus
      if roll = 1 then
        (⟨true, false, false, default_crit_mult, ac_val, total, roll, false,
          "Attack d20(" ++ toString roll ++ ") + " ++ toString atk_bonus ++ " vs AC " ++
            toString ac_val ++ " -> auto miss"⟩, dice1)
      else
        let conceal_pct := concealment_pct st target
        let missOut : Option (AttackResult × List Int) :=
          if 0 < conceal_pct then
            let md := d100 dice1
            if md.1 ≤ conceal_pct then
              some (⟨true, false, false, default_crit_mult, ac_val, total, roll, true,
                "Attack d20(" ++ toString roll ++ ") + " ++ toString atk_bonus ++ " vs AC " ++
                  toString ac_val ++ " -> concealment " ++ toString conceal_pct ++
                  "% miss (roll " ++ toString md.1 ++ ")"⟩, md.2)
            else none
          else none
        match missOut with
        | some out => out
        | none =>
          let dice2 := if 0 < conceal_pct then (d100 dice1).2 else dice1
          let hit := total ≥ ac_val ∨ roll = 20
          if ¬ hit then
            (⟨true, false, false, default_crit_mult, ac_val, total, roll, false,
              "Attack d20(" ++ toString roll ++ ") + " ++ toString atk_bonus ++ " vs AC " ++
                toString ac_val ++ " -> miss"⟩, dice2)
          else
            if roll = 20 then
              let cd := d20 dice2
              let confirm_roll := cd.1
              let confirm_total := confirm_roll + atk_bonus
              if confirm_total ≥ ac_val ∨ confirm_roll = 20 then
                (⟨true, true, true, default_crit_mult, ac_val, total, roll, false,
                  "Attack " ++ toString roll ++ "+" ++ toString atk_bonus ++ " vs AC " ++
                    toString ac_val ++ " -> hit; crit confirm " ++ toString confirm_roll ++
                    "+" ++ toString atk_bonus ++ " -> critical x" ++
                    toString default_crit_mult⟩, cd.2)
              else
                (⟨true, true, false, default_crit_mult, ac_val, total, roll, false,
                  "Attack " ++ toString roll ++ "+" ++ toString atk_bonus ++ " vs AC " ++
                    toString ac_val ++ " -> hit"⟩, cd.2)
            else
              (⟨true, true, false, default_crit_mult, ac_val, total, roll, false,
                "Attack " ++ toString roll ++ "+" ++ toString atk_bonus ++ " vs AC " ++
                  toString ac_val ++ " -> hit"⟩, dice2)

/-- The placeholder SaveResult used when a gate short-circuits. -/
def emptySave : SaveResult := ⟨false, false, none, 0, 0, 0, none, ""⟩

/-- The placeholder AttackResult used when a gate short-circuits. -/
def emptyAttack : AttackResult := ⟨false, false, false, 1, 0, 0, 0, false, ""⟩

/-- GatesEngine.evaluate: SR gate, then save gate with its branch policy
(negates blocks on success, half halves the damage scale, partial passes the
success flag), then attack gate; short-circuits on the first failure.  A DC
evaluation error in the save gate propagates (Except.error). -/
def gates_evaluate (o : EngineOracles) (st : GameState) (ed : EffectDefinition)
    (source target : Entity) (dice : List Int) :
    Except Unit (GateOutcome × List String × List Int) :=
  let srd := sr_gate o ed source target dice
  let sr := srd.1
  let logs0 := [sr.note]
  if sr.passed = false then
    .ok (⟨false, sr, emptySave, emptyAttack, 1, false, 1⟩, logs0, srd.2)
  else
    match save_gate o ed source target srd.2 with
    | .error e => .error e
    | .ok (sv, dice1) =>
      let logs1 := if sv.attempted then logs0 ++ [sv.note] else logs0
      let damage_scale : ℚ :=
        if sv.attempted ∧ sv.branch = some "half" then (if sv.succeeded then 1/2 else 1) else 1
      let saved_flag :=
        if sv.attempted ∧ (sv.branch = some "half" ∨ sv.branch = some "partial") then
          sv.succeeded
        else false
      let allowed_after_save :=
        if sv.attempted ∧ sv.branch = some "negates" then ¬ sv.succeeded else True
      if ¬ allowed_after_save then
        .ok (⟨false, sr, sv, emptyAttack, damage_scale, saved_flag, 1⟩, logs1, dice1)
      else
        let ag? := match ed.gates with
                   | none => none
                   | some g => g.attack
        let ad := attack_gate o st source target ag? dice1
        let atk := ad.1
        let logs2 := if atk.attempted then logs1 ++ [atk.note] else logs1
        if atk.attempted ∧ atk.hit = false then
          .ok (⟨false, sr, sv, atk, damage_scale, saved_flag, 1⟩, logs2, ad.2)
        else
          let crit_mult := if atk.crit then atk.crit_mult else 1
          .ok (⟨true, sr, sv, atk, damage_scale, saved_flag, crit_mult⟩, logs2, ad.2)

/-! ## Conditions engine (engine/conditions_runtime.py) -/

/-- ConditionsEngine._snapshot_duration_rounds: resolve the effective
duration of a condition application (override wins over the definition's
default).  A rounds formula is evaluated with no handler around the
evaluation itself (only the int conversion is guarded), so an evaluation
error propagates. -/
def cond_snapshot_duration (o : EngineOracles) (cd : ConditionDefinition)
    (override : Option DurationSpec) (source : Entity) :
    Except Unit (String × Option Int) :=
  let ds? := match override with
             | some ds => some ds
             | none => cd.default_duration
  match ds? with
  | none => .ok ("instantaneous", none)
  | some ds =>
    if ds.type = "instantaneous" ∨ ds.type = "permanent" ∨ ds.type = "special" then
      .ok (ds.type, none)
    else if ds.type = "rounds" then
      match ds.value with
      | some v => .ok ("rounds", some (max 0 v))
      | none =>
        match ds.formula with
        | some f =>
          match o.evalE f (some source) none with
          | .ok v => .ok ("rounds", some (max 0 (pyInt v)))
          | .error e => .error e
        | none => .ok ("rounds", none)
    else .ok (ds.type, none)

/-- The refresh walk of ConditionsEngine.apply: find the first instance with
the same definition id, extend its remaining rounds when the new snapshot
is strictly larger (or the old value is absent), and mark it active; returns
the updated list together with the refreshed instance, or none when no
instance matches. -/
def refreshFirst (cond_id : String) (rem_rounds : Option Int) :
    List ConditionInstance → Option (List ConditionInstance × ConditionInstance)
  | [] => none
  | inst :: rest =>
    if inst.definition_id = cond_id then
      let inst1 :=
        if inst.duration_type = "rounds" ∧ rem_rounds ≠ none then
          match rem_rounds with
          | some newv =>
            (match inst.remaining_rounds with
             | none => { inst with remaining_rounds := some newv }
             | some old =>
               if newv > old then { inst with remaining_rounds := some newv } else inst)
          | none => inst
        else inst
      let inst2 := { inst1 with active := true }
      some (inst2 :: rest, inst2)
    else
      match refreshFirst cond_id rem_rounds rest with
      | some (rest1, i) => some (inst :: rest1, i)
      | none => none

/-- ConditionsEngine.apply: unknown ids log and do nothing; re-applying an
existing condition without an explicit stacking request refreshes the first
matching instance; otherwise a fresh instance (instance id drawn from the
uuid supply) is appended to the target's list. -/
def conditions_apply (o : EngineOracles) (content : ContentIndex) (st : GameState)
    (cond_id : String) (source target : Entity)
    (duration_override : Option DurationSpec) (stacksFlag : Option Bool)
    (newId : String) : Except Unit (List String × GameState) :=
  match alookup content.conditions cond_id with
  | none => .ok (["[Cond] Unknown condition id: " ++ cond_id], st)
  | some cd =>
    match cond_snapshot_duration o cd duration_override source with
    | .error e => .error e
    | .ok (dur_type, rem_rounds) =>
      let new_inst : ConditionInstance :=
        { instance_id := newId
          definition_id := cd.id
          name := cd.name
          source_entity_id := source.id
          target_entity_id := target.id
          precedence := cd.precedence
          tags := cd.tags
          duration_type := dur_type
          remaining_rounds := rem_rounds
          applied_at_round := st.round_counter }
      let lst := (alookup st.active_conditions target.id).getD []
      if stacksFlag.getD false = false then
        match refreshFirst cond_id rem_rounds lst with
        | some (lst1, instAfter) =>
          .ok (["[Cond] Refreshed " ++ cd.name ++ " on " ++ target.name ++ " (" ++
                  toString (instAfter.remaining_rounds.getD 0) ++ " rounds)"],
               { st with active_conditions := aset st.active_conditions target.id lst1 })
        | none =>
          .ok (["[Cond] " ++ cd.name ++ " applied to " ++ target.name ++ " (" ++ dur_type ++
                  (match rem_rounds with
                   | some r => " " ++ toString r ++ " rounds"
                   | none => "") ++ ")"],
               { st with active_conditions := aset st.active_conditions target.id (lst ++ [new_inst]) })
      else
        .ok (["[Cond] " ++ cd.name ++ " applied to " ++ target.name ++ " (" ++ dur_type ++
                (match rem_rounds with
                 | some r => " " ++ toString r ++ " rounds"
                 | none => "") ++ ")"],
             { st with active_conditions := aset st.active_conditions target.id (lst ++ [new_inst]) })

/-- ConditionsEngine.remove for the by-definition-id form used by the
condition.remove operation: removes every instance with the id. -/
def conditions_remove (st : GameState) (cond_id : String) (target : Entity) :
    List String × GameState :=
  let lst := (alookup st.active_conditions target.id).getD []
  let kept := lst.filter (fun inst => inst.definition_id ≠ cond_id)
  let removed := lst.filter (fun inst => inst.definition_id = cond_id)
  let logs :=
    removed.map (fun inst => "[Cond] Removed " ++ inst.name ++ " from " ++ target.name)
  let logs1 :=
    if removed.isEmpty then logs ++ ["[Cond] " ++ cond_id ++ " not present on " ++ target.name]
    else logs
  (logs1, { st with active_conditions := aset st.active_conditions target.id kept })

/-! ## Resource engine (engine/resources_runtime.py) -/

/-- ResourceEngine._owner_key. -/
def owner_key (scope : String) (eid fid iid zid : Option String) : String :=
  if scope = "entity" ∧ eid.getD "" ≠ "" then "entity:" ++ eid.getD ""
  else if scope = "effect-instance" ∧ fid.getD "" ≠ "" then "effect:" ++ fid.getD ""
  else if scope = "item" ∧ iid.getD "" ≠ "" then "item:" ++ iid.getD ""
  else if scope = "zone" ∧ zid.getD "" ≠ "" then "zone:" ++ zid.getD ""
  else "misc"

/-- ResourceEngine._attach_state: append the state to its owner bucket. -/
def attach_state (st : GameState) (rs : ResourceState) : GameState :=
  let key := owner_key rs.owner_scope rs.owner_entity_id rs.owner_effect_instance_id none none
  { st with resources := aset st.resources key ((alookup st.resources key).getD [] ++ [rs]) }

/-- ResourceEngine._find_owner_entity: only the player is tracked by id. -/
def find_owner_entity (st : GameState) (eid : Option String) : Option Entity :=
  match eid with
  | none => none
  | some e => if e = "" then none else if st.player.id = e then some st.player else none

/-- ResourceEngine._compute_capacity: evaluate the capacity formula (an
evaluation error propagates; only the int conversion is guarded in the
source), apply the optional cap, clamp at 0. -/
def compute_capacity (o : EngineOracles) (rd : ResourceDefinition) (owner : Entity) :
    Except Unit Int :=
  match o.evalRaw rd.capacity.formula owner with
  | .error e => .error e
  | .ok v =>
    let cap := pyInt v
    let cap1 := match rd.capacity.cap with
                | some c => min cap c
                | none => cap
    .ok (max 0 cap1)

/-- ResourceEngine.create_from_definition.  The source reads the computeAt
key with rd.capacity.get("computeAt", "attach") as if the capacity record
were a dict; the model reads the computeAt field with the same default.
The state id of the new pool is drawn from the uuid supply. -/
def create_from_definition (o : EngineOracles) (content : ContentIndex) (st : GameState)
    (def_id : String) (owner_scope : Option String) (owner_entity_id : Option String)
    (owner_effect_instance_id : Option String) (initial_current : Option ExprV)
    (newSid : String) : Except Unit (Option ResourceState × List String × GameState) :=
  match alookup content.resources def_id with
  | none => .ok (none, ["[Res] Unknown resource id: " ++ def_id], st)
  | some rd =>
    let scope := match owner_scope with
                 | some s => if s = "" then rd.scope else s
                 | none => rd.scope
    let owner_ent := find_owner_entity st owner_entity_id
    let baseName := match rd.name with
                    | some n => if n = "" then rd.id else n
                    | none => rd.id
    let maxE : Except Unit Int :=
      match owner_ent with
      | some owner => compute_capacity o rd owner
      | none => .ok 0
    match maxE with
    | .error e => .error e
    | .ok max_computed =>
      let currentE : Except Unit Int :=
        match initial_current with
        | some (.num v) => .ok (pyInt v)
        | some (.formula f) =>
          match owner_ent with
          | some owner =>
            (match o.evalE f (some owner) none with
             | .ok v => .ok (max 0 (pyInt v))
             | .error e => .error e)
          | none =>
            -- falls through the elif chain: rd.initial_current also needs an owner
            .ok max_computed
        | none =>
          match rd.initial_current, owner_ent with
          | some (.num v), some _ => .ok (max 0 (pyInt v))
          | some (.formula f), some owner =>
            (match o.evalE f (some owner) none with
             | .ok v => .ok (max 0 (pyInt v))
             | .error e => .error e)
          | _, _ => .ok max_computed
      match currentE with
      | .error e => .error e
      | .ok current =>
        let rs : ResourceState :=
          { state_id := newSid
            definition_id := some rd.id
            name := some baseName
            owner_scope := scope
            owner_entity_id := if scope = "entity" then owner_entity_id else none
            owner_effect_instance_id :=
              if scope = "effect-instance" then owner_effect_instance_id else none
            current := current
            max_computed := max_computed
            capacity_computeAt := rd.capacity.computeAt.getD "attach"
            freezeOnAttach := rd.freezeOnAttach.getD false
            refresh := rd.refresh
            absorption := rd.absorption }
        let ownerName := match owner_ent with
                         | some oe => oe.name
                         | none => "?"
        .ok (some rs,
             ["[Res] Created " ++ baseName ++ " (" ++ toString current ++ "/" ++
                toString max_computed ++ ") for " ++ ownerName],
             attach_state st rs)

/-- ResourceEngine.grant_temp_hp: go through the res.temp_hp definition when
the content declares one, otherwise attach an ad-hoc frozen pool whose
amount comes from the amount expression (evaluation errors propagate). -/
def grant_temp_hp (o : EngineOracles) (content : ContentIndex) (st : GameState)
    (owner_entity_id : String) (amount_expr : ExprV)
    (effect_instance_id : Option String) (newSid : String) :
    Except Unit (List String × GameState) :=
  match find_owner_entity st (some owner_entity_id) with
  | none => .ok (["[Res] temp hp: unknown owner"], st)
  | some owner =>
    if (alookup content.resources "res.temp_hp").isSome then
      match create_from_definition o content st "res.temp_hp" (some "effect-instance")
          (some owner_entity_id) effect_instance_id (some amount_expr) newSid with
      | .error e => .error e
      | .ok (_, logs, st1) => .ok (logs, st1)
    else
      let amountE : Except Unit Int :=
        match amount_expr with
        | .num v => .ok (pyInt v)
        | .formula f =>
          match o.evalE f (some owner) none with
          | .ok v => .ok (pyInt v)
          | .error e => .error e
      match amountE with
      | .error e => .error e
      | .ok amount =>
        let rs : ResourceState :=
          { state_id := newSid
            definition_id := none
            name := some "Temporary Hit Points"
            owner_scope := "effect-instance"
            owner_entity_id := some owner_entity_id
            owner_effect_instance_id := effect_instance_id
            current := max 0 amount
            max_computed := max 0 amount
            capacity_computeAt := "attach"
            freezeOnAttach := true }
        .ok (["[Res] Granted Temp HP " ++ toString (max 0 amount) ++ " to " ++ owner.name],
             attach_state st rs)

/-- The entity-bucket walk of ResourceEngine.spend: decrement the first pool
with the definition id and a sufficient current amount (pools with the id
but insufficient current are passed over, exactly as in the source). -/
def spendEntityBucket (resource_id : String) (amount : Int) :
    List ResourceState → Option (List ResourceState)
  | [] => none
  | rs :: rest =>
    if rs.definition_id = some resource_id ∧ rs.current ≥ amount then
      some ({ rs with current := rs.current - amount } :: rest)
    else
      match spendEntityBucket resource_id amount rest with
      | some rest1 => some (rs :: rest1)
      | none => none

/-- The effect-bucket walk of ResourceEngine.spend: the same search over a
single effect bucket, additionally matching the owning entity. -/
def spendEffectList (owner_entity_id resource_id : String) (amount : Int) :
    List ResourceState → Option (List ResourceState)
  | [] => none
  | rs :: rest =>
    if rs.owner_entity_id = some owner_entity_id ∧ rs.definition_id = some resource_id ∧
        rs.current ≥ amount then
      some ({ rs with current := rs.current - amount } :: rest)
    else
      match spendEffectList owner_entity_id resource_id amount rest with
      | some rest1 => some (rs :: rest1)
      | none => none

/-- The walk over every effect:* bucket, in dict insertion order. -/
def spendEffectBuckets (owner_entity_id resource_id : String) (amount : Int) :
    List (String × List ResourceState) → Option (List (String × List ResourceState))
  | [] => none
  | (k, lst) :: rest =>
    if strStartsWith k "effect:" then
      match spendEffectList owner_entity_id resource_id amount lst with
      | some lst1 => some ((k, lst1) :: rest)
      | none =>
        match spendEffectBuckets owner_entity_id resource_id amount rest with
        | some rest1 => some ((k, lst) :: rest1)
        | none => none
    else
      match spendEffectBuckets owner_entity_id resource_id amount rest with
      | some rest1 => some ((k, lst) :: rest1)
      | none => none

/-- ResourceEngine.spend: entity-scoped pools first, then pools owned by an
effect instance of the entity; false with no mutation when no pool
suffices. -/
def resource_spend (st : GameState) (owner_entity_id resource_id : String) (amount : Int) :
    Bool × GameState :=
  let key := "entity:" ++ owner_entity_id
  match spendEntityBucket resource_id amount ((alookup st.resources key).getD []) with
  | some bucket1 => (true, { st with resources := aset st.resources key bucket1 })
  | none =>
    match spendEffectBuckets owner_entity_id resource_id amount st.resources with
    | some res1 => (true, { st with resources := res1 })
    | none => (false, st)

/-- ResourceEngine.restore: entity-scoped pools only; the first pool with
the definition id is reset to max or incremented with a clamp at max. -/
def resource_restore (st : GameState) (owner_entity_id resource_id : String)
    (amount : Option Int) (to_max : Bool) : Bool × GameState :=
  let key := "entity:" ++ owner_entity_id
  let bucket := (alookup st.resources key).getD []
  let rec go : List ResourceState → Option (List ResourceState)
    | [] => none
    | rs :: rest =>
      if rs.definition_id = some resource_id then
        let rs1 :=
          if to_max then { rs with current := rs.max_computed }
          else match amount with
               | some a => { rs with current := min rs.max_computed (rs.current + a) }
               | none => rs
        some (rs1 :: rest)
      else
        match go rest with
        | some rest1 => some (rs :: rest1)
        | none => none
  match go bucket with
  | some bucket1 => (true, { st with resources := aset st.resources key bucket1 })
  | none => (false, st)

/-- ResourceEngine.set_current: clamp into [0, max] on the first
entity-scoped pool with the definition id. -/
def resource_set_current (st : GameState) (owner_entity_id resource_id : String)
    (current : Int) : Bool × GameState :=
  let key := "entity:" ++ owner_entity_id
  let bucket := (alookup st.resources key).getD []
  let rec go : List ResourceState → Option (List ResourceState)
    | [] => none
    | rs :: rest =>
      if rs.definition_id = some resource_id then
        some ({ rs with current := max 0 (min rs.max_computed current) } :: rest)
      else
        match go rest with
        | some rest1 => some (rs :: rest1)
        | none => none
  match go bucket with
  | some bucket1 => (true, { st with resources := aset st.resources key bucket1 })
  | none => (false, st)

/-! ## Damage pipeline (engine/damage_runtime.py).  The production engine
constructs DamageEngine(content, state) with the hooks collaborator left at
its None default, so the two hook notification sites are no-ops. -/

/-- DamagePacket record. -/
structure DamagePacket where
  amount : Int
  dkind : String
  counts_as_magic : Bool := false
  counts_as_material : Option (List String) := none
  counts_as_alignment : Option (List String) := none
deriving Repr, DecidableEq

/-- PipelineResult record. -/
structure PipelineResult where
  total_hp_damage : Int
  total_nonlethal : Int
  physical_damage_applied : Int
  logs : List String
deriving Repr, DecidableEq

/-- The last dot-separated segment of a damage kind
(pkt.dkind.split(".")[-1]). -/
def lastSeg (s : String) : String := ((s.splitOn ".").getLast?).getD ""

/-- DamageEngine._dr_applies: true when the DR entry is not bypassed by the
packet's magic/material/alignment/weapon-type properties. -/
def dr_applies (dr : DREntry) (p : DamagePacket) : Bool :=
  let byMaterials : Bool :=
    match dr.bypass_materials with
    | some mats =>
      !mats.isEmpty && (match p.counts_as_material with
                        | some pm => !pm.isEmpty && pm.any (fun m => mats.contains m)
                        | none => false)
    | none => false
  let byAlignments : Bool :=
    match dr.bypass_alignments with
    | some als =>
      !als.isEmpty && (match p.counts_as_alignment with
                       | some pa => !pa.isEmpty && pa.any (fun a => als.contains a)
                       | none => false)
    | none => false
  let byWeaponTypes : Bool :=
    match dr.bypass_weapon_types with
    | some wts =>
      !wts.isEmpty &&
        (let tail := if strStartsWith p.dkind "physical." then lastSeg p.dkind else ""
         !(tail = "") && wts.contains tail)
    | none => false
  if p.counts_as_magic ∧ dr.bypass_magic then false
  else if byMaterials then false
  else if byAlignments then false
  else if byWeaponTypes then false
  else true

/-- DamageEngine._absorption_matches. -/
def absorption_matches (rs : ResourceState) (dkind : String) : Bool :=
  match rs.absorption with
  | none => false
  | some ab =>
    if ab.absorbTypes.contains "any" then true
    else if ab.absorbTypes.contains "physical" ∧ strStartsWith dkind "physical." then true
    else ab.absorbTypes.contains dkind

/-- DamageEngine._find_absorbers: the matching entity-scoped pools first,
then matching pools owned by an effect instance of the entity, each
identified by its (uuid-unique) state id. -/
def find_absorbers (st : GameState) (entity_id : String) (dkind : String) : List String :=
  let entityOnes :=
    ((alookup st.resources ("entity:" ++ entity_id)).getD []).filterMap
      (fun rs =>
        if rs.absorption.isSome ∧ absorption_matches rs dkind then some rs.state_id else none)
  let effectOnes :=
    (st.resources.filter (fun kv => strStartsWith kv.1 "effect:")).flatMap
      (fun kv => kv.2.filterMap
        (fun rs =>
          if rs.owner_entity_id = some entity_id ∧ rs.absorption.isSome ∧
              absorption_matches rs dkind then some rs.state_id else none))
  entityOnes ++ effectOnes

/-- Look up a pool by state id across every bucket. -/
def pool_lookup (res : List (String × List ResourceState)) (sid : String) :
    Option ResourceState :=
  (res.flatMap (fun kv => kv.2)).find? (fun rs => rs.state_id = sid)

/-- Decrement a pool's current amount by state id (state ids are uuids, so
exactly one pool is touched; this models in-place mutation of the shared
pool object). -/
def pool_decrement (res : List (String × List ResourceState)) (sid : String) (take : Int) :
    List (String × List ResourceState) :=
  res.map (fun kv =>
    (kv.1, kv.2.map (fun rs =>
      if rs.state_id = sid then { rs with current := rs.current - take } else rs)))

/-- Stage 1 of apply_packets: drop packets of a kind the target is immune
to; clamp the surviving amounts at 0. -/
def stage_immunity (ent : Entity) (packets : List DamagePacket) :
    List DamagePacket × List String :=
  packets.foldl
    (fun acc p =>
      if ent.immunities.contains p.dkind then
        (acc.1,
         acc.2 ++ ["[Dmg] Immune to " ++ p.dkind ++ " (ignored " ++ toString p.amount ++ ")"])
      else
        (acc.1 ++ [{ p with amount := max 0 p.amount }], acc.2))
    ([], [])

/-- Stage 3.1: per-packet energy resistance (subtract, floor at 0). -/
def stage_resist (ent : Entity) (ps : List DamagePacket) :
    List DamagePacket × List String :=
  ps.foldl
    (fun acc p =>
      let resist := (alookup ent.energy_resist p.dkind).getD 0
      if resist > 0 ∧ p.amount > 0 then
        let reduced := max 0 (p.amount - resist)
        if reduced ≠ p.amount then
          (acc.1 ++ [{ p with amount := reduced }],
           acc.2 ++ ["[Dmg] Resist " ++ p.dkind ++ " " ++ toString resist ++ " -> " ++
                       toString p.amount ++ "->" ++ toString reduced])
        else (acc.1 ++ [p], acc.2)
      else (acc.1 ++ [p], acc.2))
    ([], [])

/-- Whether a packet is a physical packet with a positive amount (membership
in the phys_indices list). -/
def isPhys (p : DamagePacket) : Bool :=
  strStartsWith p.dkind "physical." ∧ p.amount > 0

/-- Python max(pairs, key) over the applicable DR entries: the first entry
with the greatest value. -/
def bestDr : List DREntry → Option DREntry
  | [] => none
  | d :: rest => some (rest.foldl (fun best x => if x.value > best.value then x else best) d)

/-- The total physical amount the chosen DR entry applies to. -/
def subjectSum (best : DREntry) (ps : List DamagePacket) : Int :=
  (ps.filter (fun p => isPhys p ∧ dr_applies best p)).foldl (fun s p => s + p.amount) 0

/-- The in-order DR distribution walk: subtract from each subject packet
until the DR amount is consumed. -/
def drDistribute (best : DREntry) : Int → List DamagePacket → List DamagePacket
  | _, [] => []
  | rem, p :: rest =>
    if rem ≤ 0 then p :: rest
    else if isPhys p ∧ dr_applies best p then
      let take := min p.amount rem
      { p with amount := p.amount - take } :: drDistribute best (rem - take) rest
    else p :: drDistribute best rem rest

/-- Stage 3.2: damage reduction once per attack.  Select the single
highest-value DR entry that applies to at least one physical packet,
subtract min(DR value, total subject amount) distributed across the subject
packets in order. -/
def stage_dr (ent : Entity) (ps : List DamagePacket) :
    List DamagePacket × List String :=
  if (ps.filter isPhys) ≠ [] ∧ ent.dr ≠ [] then
    let applicable := ent.dr.filter (fun dr => (ps.filter isPhys).any (dr_applies dr))
    match bestDr applicable with
    | none => (ps, [])
    | some best =>
      let s := subjectSum best ps
      if s > 0 ∧ best.value > 0 then
        let dr_amount := min best.value s
        (drDistribute best dr_amount ps,
         ["[Dmg] DR " ++ toString best.value ++ "/- reduces total physical " ++ toString s ++
            " by " ++ toString dr_amount ++ " (per attack)"])
      else (ps, [])
  else (ps, [])

/-- The inner absorber walk of stage 3.3 for a single packet. -/
def absorbWalk (p : DamagePacket) (st : GameState) :
    List String → DamagePacket × List String × GameState
  | [] => (p, [], st)
  | sid :: rest =>
    if p.amount ≤ 0 then (p, [], st)
    else
      match pool_lookup st.resources sid with
      | none => absorbWalk p st rest
      | some rs =>
        let can := match rs.absorption with
                   | some ab => (match ab.absorbPerHit with
                                 | some cap => min rs.current cap
                                 | none => rs.current)
                   | none => rs.current
        let take := min can p.amount
        if take > 0 then
          let st1 := { st with resources := pool_decrement st.resources sid take }
          let p1 := { p with amount := p.amount - take }
          let lg := "[Dmg] " ++ ((rs.name.getD (rs.definition_id.getD "")) ) ++ " absorbed " ++
                      toString take ++ " (" ++ toString (rs.current - take) ++ " left)"
          let out := absorbWalk p1 st1 rest
          (out.1, lg :: out.2.1, out.2.2)
        else absorbWalk p st rest

/-- Stage 3.3: ablative pools after DR; absorbers are re-resolved for each
packet against the evolving resource state. -/
def stage_pools (entity_id : String) (ps : List DamagePacket) (st : GameState) :
    List DamagePacket × List String × GameState :=
  ps.foldl
    (fun acc p =>
      if p.amount ≤ 0 then (acc.1 ++ [p], acc.2.1, acc.2.2)
      else
        let sids := find_absorbers acc.2.2 entity_id p.dkind
        let out := absorbWalk p acc.2.2 sids
        (acc.1 ++ [out.1], acc.2.1 ++ out.2.1, out.2.2))
    ([], [], st)

/-- Stage 4: per-packet vulnerability multiplier, rounding to nearest
(Python round, half to even), floored at 0. -/
def stage_vuln (ent : Entity) (ps : List DamagePacket) :
    List DamagePacket × List String :=
  ps.foldl
    (fun acc p =>
      if p.amount ≤ 0 then (acc.1 ++ [p], acc.2)
      else
        let v0 := (alookup ent.vulnerabilities p.dkind).getD 1
        let v := if v0 = 0 then 1 else v0
        if v ≠ 1 then
          let new_amt := max 0 (pyRound ((p.amount : ℚ) * v))
          if new_amt ≠ p.amount then
            (acc.1 ++ [{ p with amount := new_amt }],
             acc.2 ++ ["[Dmg] Vulnerability " ++ p.dkind ++ " -> " ++ toString p.amount ++
                         "->" ++ toString new_amt])
          else (acc.1 ++ [p], acc.2)
        else (acc.1 ++ [p], acc.2))
    ([], [])

/-- Stage 5: commit to hit points / the nonlethal counter (hp never drops
below 0); returns the totals, the log lines and the mutated entity. -/
def stage_commit (ent : Entity) (ps : List DamagePacket) :
    Int × Int × List String × Entity :=
  ps.foldl
    (fun acc p =>
      let e := acc.2.2.2
      if p.amount ≤ 0 then acc
      else if p.dkind = "nonlethal" then
        let e1 := { e with nonlethal_damage := max 0 (e.nonlethal_damage + p.amount) }
        (acc.1, acc.2.1 + p.amount,
         acc.2.2.1 ++ ["[Dmg] +" ++ toString p.amount ++ " nonlethal (total NL " ++
                         toString e1.nonlethal_damage ++ ")"], e1)
      else
        let before := e.hp_current
        let e1 := { e with hp_current := max 0 (before - p.amount) }
        let dealt := before - e1.hp_current
        (acc.1 + dealt, acc.2.1,
         acc.2.2.1 ++ ["[Dmg] " ++ p.dkind ++ " +" ++ toString dealt ++ " (HP " ++
                         toString e1.hp_current ++ "/" ++ toString e1.hp_max ++ ")"], e1))
    (0, 0, [], ent)

/-- DamageEngine._entity_by_id: only the player resolves. -/
def damage_entity_by_id (st : GameState) (ent_id : String) : Option Entity :=
  if ent_id = "" then none
  else if st.player.id = ent_id then some st.player
  else none

/-- DamageEngine.apply_packets: the full pipeline in its fixed stage order
(immunity, energy resistance, damage reduction once per attack, ablative
pools, vulnerability, commit), threading the game state through the pool
and hit-point mutations. -/
def apply_packets (st : GameState) (target_entity_id : String)
    (packets : List DamagePacket) : PipelineResult × GameState :=
  match damage_entity_by_id st target_entity_id with
  | none => (⟨0, 0, 0, ["[Dmg] unknown target"]⟩, st)
  | some ent =>
    let s1 := stage_immunity ent packets
    if s1.1 = [] then (⟨0, 0, 0, s1.2⟩, st)
    else
      let s2 := stage_resist ent s1.1
      let s3 := stage_dr ent s2.1
      let s4 := stage_pools target_entity_id s3.1 st
      let st1 := s4.2.2
      let s5 := stage_vuln ent s4.1
      let s6 := stage_commit ent s5.1
      let finalEnt := s6.2.2.2
      let st2 := { st1 with player := finalEnt }
      let physical_applied :=
        (s5.1.filter (fun p => strStartsWith p.dkind "physical.")).foldl
          (fun s p => s + p.amount) 0
      (⟨s6.1, s6.2.1, physical_applied,
        s1.2 ++ s2.2 ++ s3.2 ++ s4.2.1 ++ s5.2 ++ s6.2.2.1⟩, st2)

/-! ## Rule hooks registry (engine/rulehooks_runtime.py), the removal side -/

/-- The hook bucket of a (scope, target) pair. -/
def bucketOf (reg : HooksRegistry) (scope tid : String) : List RegisteredHook :=
  (alookup ((alookup reg.by_scope scope).getD []) tid).getD []

/-- One step of unregister_by_parent: filter the hook id out of the bucket
the reverse-index entry names.  (The source indexes _by_scope[scope]
directly and would raise KeyError for a scope absent from the index, a
state _register never produces; the model writes the filtered bucket
back.) -/
def unregister_step (reg : HooksRegistry) (e : String × String × String) : HooksRegistry :=
  let scope := e.1
  let tid := e.2.1
  let hid := e.2.2
  let inner := (alookup reg.by_scope scope).getD []
  let lst := (alookup inner tid).getD []
  { reg with
      by_scope := aset reg.by_scope scope (aset inner tid (lst.filter (fun h => h.hook_id ≠ hid))) }

/-- RuleHooksRegistry.unregister_by_parent: pop the parent's reverse-index
entries and filter each named bucket. -/
def unregister_by_parent (reg : HooksRegistry) (pid : String) : HooksRegistry :=
  let entries := (alookup reg.parent_index pid).getD []
  let reg1 := { reg with parent_index := aremove reg.parent_index pid }
  entries.foldl unregister_step reg1

/-! ## Effects engine (engine/effects_runtime.py) -/

/-- The per-instance walk of EffectsEngine.tick_round over one entity's
list: decrement rounds-based instances, and on reaching 0 unregister the
instance's hooks and drop it, emitting the expiry notice. -/
def effects_tick_list (hooksPresent : Bool) :
    List EffectInstance → HooksRegistry → List EffectInstance × HooksRegistry × List String
  | [], reg => ([], reg, [])
  | inst :: rest, reg =>
    if inst.duration_type = "rounds" then
      match inst.remaining_rounds with
      | some r =>
        let r1 := if r > 0 then r - 1 else r
        if r1 ≤ 0 then
          let reg1 := if hooksPresent then unregister_by_parent reg inst.instance_id else reg
          let out := effects_tick_list hooksPresent rest reg1
          (out.1, out.2.1, ("[Effects] " ++ inst.name ++ " expired") :: out.2.2)
        else
          let out := effects_tick_list hooksPresent rest reg
          ({ inst with remaining_rounds := some r1 } :: out.1, out.2.1, out.2.2)
      | none =>
        let out := effects_tick_list hooksPresent rest reg
        (inst :: out.1, out.2.1, out.2.2)
    else
      let out := effects_tick_list hooksPresent rest reg
      (inst :: out.1, out.2.1, out.2.2)

/-- EffectsEngine.tick_round: every entity's effect list is walked in dict
order, writing back the kept instances. -/
def effects_tick_round (hooksPresent : Bool) (st : GameState) (reg : HooksRegistry) :
    GameState × HooksRegistry × List String :=
  let out := st.active_effects.foldl
    (fun acc kv =>
      let r := effects_tick_list hooksPresent kv.2 acc.2.1
      (acc.1 ++ [(kv.1, r.1)], r.2.1, acc.2.2 ++ r.2.2))
    ([], reg, [])
  ({ st with active_effects := out.1 }, out.2.1, out.2.2)

/-- EffectsEngine._snapshot_duration_rounds: the rounds value comes from the
literal or from the formula evaluated against the source actor (an
evaluation error propagates — the call has no handler). -/
def eff_snapshot_duration (o : EngineOracles) (ed : EffectDefinition) (source : Entity) :
    Except Unit (String × Option Int) :=
  match ed.duration with
  | none => .ok ("instantaneous", none)
  | some ds =>
    if ds.type = "rounds" then
      match ds.value with
      | some v => .ok ("rounds", some (max 0 v))
      | none =>
        match ds.formula with
        | some f =>
          match o.evalE f (some source) none with
          | .ok v => .ok ("rounds", some (max 0 (pyInt v)))
          | .error e => .error e
        | none => .ok ("rounds", none)
    else .ok (ds.type, none)

/-- Draw a fresh uuid4 hex from the id supply (the model of the external
randomness behind uuid generation). -/
def freshId : List String → String × List String
  | [] => ("", [])
  | i :: rest => (i, rest)

/-- Refresh a local Entity view from the state: the player object is shared
by reference in the source, so a local variable bound to it sees every
mutation made through the state. -/
def syncEnt (st : GameState) (e : Entity) : Entity :=
  if e.id = st.player.id then st.player else e

/-- Write a mutated Entity view back: mutations of the shared player object
are mutations of the state's player. -/
def writeEnt (st : GameState) (e : Entity) : GameState :=
  if e.id = st.player.id then { st with player := e } else st

/-- Rendering of a raw expression value in log text. -/
def exprText : ExprV → String
  | .num v => toString v
  | .formula s => s

/-- The packet-buffer flush of execute_operations: one apply_packets call
per contiguous run of damage operations (one attack). -/
def flush_packets (st : GameState) (target? : Option Entity)
    (buffered : List DamagePacket) : List String × GameState :=
  if buffered.isEmpty then ([], st)
  else
    match target? with
    | none => ([], st)
    | some t =>
      let out := apply_packets st t.id buffered
      (out.1.logs, out.2)

/-- EffectsEngine.execute_operations, for the production wiring in which the
damage, conditions and resource engines are present and the zones engine
guard leaves zone operations as no-ops.  Damage operations buffer packets;
any other operation first flushes the buffer as a single attack.  Formula
evaluations inside operations have no handler, so an evaluation error
propagates. -/
def exec_ops (o : EngineOracles) (content : ContentIndex) :
    List Operation → Option Entity → Option Entity → Option String → ℚ → Int →
    GameState → List DamagePacket → List String →
    Except Unit (List String × GameState × List String)
  | [], _, target?, _, _, _, st, buffered, ids =>
    let fl := flush_packets st (target?.map (syncEnt st)) buffered
    .ok (fl.1, fl.2, ids)
  | op :: rest, actor?, target?, parent?, damage_scale, crit_mult, st, buffered, ids =>
    let actor? := actor?.map (syncEnt st)
    let target? := target?.map (syncEnt st)
    match op with
    | .damage amount damage_type counts_as_magic counts_as_material counts_as_alignment =>
      let baseE : Except Unit ℚ :=
        match amount with
        | .num v => .ok v
        | .formula s =>
          match actor? with
          | some a => o.evalE s (some a) none
          | none => .ok 0
      match baseE with
      | .error e => .error e
      | .ok base =>
        let final := pyRound (base * max 0 damage_scale * (max 1 crit_mult : Int))
        let pkt : DamagePacket :=
          { amount := max 0 final
            dkind := damage_type
            counts_as_magic := counts_as_magic.getD false
            counts_as_material := counts_as_material
            counts_as_alignment := counts_as_alignment }
        exec_ops o content rest actor? target? parent? damage_scale crit_mult st
          (buffered ++ [pkt]) ids
    | _ =>
      let fl := flush_packets st target? buffered
      let st := fl.2
      let actor? := actor?.map (syncEnt st)
      let target? := target?.map (syncEnt st)
      let stepE : Except Unit (List String × GameState × List String) :=
        match op with
        | .heal_hp amount nonlethal_only =>
          (match actor? with
           | none => .ok ([], st, ids)
           | some a =>
             match o.evalRaw amount a with
             | .error e => .error e
             | .ok v =>
               let amt := pyInt v
               match target? with
               | none => .ok ([], st, ids)
               | some t =>
                 let t1 :=
                   if nonlethal_only then
                     { t with nonlethal_damage := max 0 (t.nonlethal_damage - amt) }
                   else { t with hp_current := min t.hp_max (t.hp_current + amt) }
                 .ok (["[Heal] " ++ t.name ++ " +" ++ toString amt ++ " HP"],
                      writeEnt st t1, ids))
        | .temp_hp amount =>
          (match target?, actor? with
           | some t, some _ =>
             let fi := freshId ids
             (match grant_temp_hp o content st t.id amount parent? fi.1 with
              | .error e => .error e
              | .ok (logs, st1) => .ok (logs, st1, fi.2))
           | _, _ => .ok ([], st, ids))
        | .ability_damage ab amount =>
          (match target?, actor? with
           | some t, some a =>
             (match o.evalRaw amount a with
              | .error e => .error e
              | .ok v =>
                let sc := t.abilities.get ab
                let sc1 := { sc with damage := max 0 (sc.damage + pyInt v) }
                let t1 := { t with abilities := t.abilities.set ab sc1 }
                .ok (["[Ability] " ++ t.name ++ " " ++ ab.toUpper ++ " damage +" ++
                        exprText amount], writeEnt st t1, ids))
           | _, _ => .ok ([], st, ids))
        | .ability_drain _ _ => .ok ([], st, ids)
        | .condition_apply cid duration stacksFlag =>
          (match target?, actor? with
           | some t, some a =>
             let fi := freshId ids
             (match conditions_apply o content st cid a t duration stacksFlag fi.1 with
              | .error e => .error e
              | .ok (logs, st1) => .ok (logs, st1, fi.2))
           | _, _ => .ok ([], st, ids))
        | .condition_remove cid =>
          (match target? with
           | some t =>
             let out := conditions_remove st cid t
             .ok (out.1, out.2, ids)
           | none => .ok ([], st, ids))
        | .resource_create rid owner_scope initial_current =>
          (match target? with
           | some t =>
             let scope := match owner_scope with
                          | some s => if s = "" then "entity" else s
                          | none => "entity"
             let fi := freshId ids
             (match create_from_definition o content st rid (some scope) (some t.id) none
                 initial_current fi.1 with
              | .error e => .error e
              | .ok (_, logs, st1) => .ok (logs, st1, fi.2))
           | none => .ok ([], st, ids))
        | .resource_spend rid amount =>
          (match target?, actor? with
           | some t, some a =>
             (match o.evalRaw amount a with
              | .error e => .error e
              | .ok v =>
                let out := resource_spend st t.id rid (pyInt v)
                .ok (["[Res] spend " ++ rid ++ (if out.1 then " OK" else " insufficient")],
                     out.2, ids))
           | _, _ => .ok ([], st, ids))
        | .resource_restore rid amount to_max =>
          (match target?, actor? with
           | some t, some a =>
             let amtE : Except Unit (Option Int) :=
               match amount with
               | some e =>
                 (match o.evalRaw e a with
                  | .error er => .error er
                  | .ok v => .ok (some (pyInt v)))
               | none => .ok none
             (match amtE with
              | .error e => .error e
              | .ok amt =>
                let out := resource_restore st t.id rid amt to_max
                .ok ([], out.2, ids))
           | _, _ => .ok ([], st, ids))
        | .resource_set _ _ => .ok ([], st, ids)
        | .zone_create _ _ => .ok ([], st, ids)
        | .zone_destroy _ _ => .ok ([], st, ids)
        | .save _ _ => .ok ([], st, ids)
        | .other opName =>
          .ok (["[Effects] Unhandled op " ++ opName ++ " (no-op)"], st, ids)
        | .damage _ _ _ _ _ => .ok ([], st, ids)
      match stepE with
      | .error e => .error e
      | .ok (lgs, st1, ids1) =>
        match exec_ops o content rest actor? target? parent? damage_scale crit_mult st1 [] ids1 with
        | .error e => .error e
        | .ok (lgs2, st2, ids2) => .ok (fl.1 ++ lgs ++ lgs2, st2, ids2)

/-- EffectsEngine.attach, for the production wiring: the gate evaluator is
present; the zones and hooks collaborators' branches (antimagic
pre-suppression, incoming-effect interception, hook registration and
suppression update) are each guarded by "if self.zones" / "if self.hooks"
in the source and are skipped when those collaborators are absent, the
constructor default.  Trace output (state.last_trace) is presentation-only
and not modelled.  Gate or formula evaluation errors propagate. -/
def effects_attach (o : EngineOracles) (content : ContentIndex) (st : GameState)
    (effect_id : String) (source target : Entity) (dice : List Int) (ids : List String) :
    Except Unit (List String × GameState × List Int × List String) :=
  match alookup content.effects effect_id with
  | none => .ok (["[Effects] Unknown effect id: " ++ effect_id], st, dice, ids)
  | some ed =>
    match gates_evaluate o st ed source target dice with
    | .error e => .error e
    | .ok (outcome, glogs, dice1) =>
      if outcome.allowed = false then
        .ok (glogs ++ ["[Effects] " ++ ed.name ++ " did not take effect"], st, dice1, ids)
      else
        match eff_snapshot_duration o ed source with
        | .error e => .error e
        | .ok (dur_type, rem_rounds) =>
          let fi := freshId ids
          let inst : EffectInstance :=
            { instance_id := fi.1
              definition_id := ed.id
              name := ed.name
              abilityType := ed.abilityType
              source_entity_id := source.id
              target_entity_id := target.id
              duration_type := dur_type
              remaining_rounds := rem_rounds
              started_at_round := st.round_counter }
          match exec_ops o content ed.operations (some source) (some target) (some fi.1)
              outcome.damage_scale outcome.crit_mult st [] fi.2 with
          | .error e => .error e
          | .ok (oplogs, st1, ids2) =>
            if dur_type = "instantaneous" then
              .ok (glogs ++ oplogs ++
                     ["[Effects] " ++ ed.name ++ " (instantaneous) applied to " ++ target.name],
                   st1, dice1, ids2)
            else
              let st2 := { st1 with
                active_effects :=
                  aset st1.active_effects target.id
                    ((alookup st1.active_effects target.id).getD [] ++ [inst]) }
              .ok (glogs ++ oplogs ++
                     ["[Effects] " ++ ed.name ++ " attached (" ++ dur_type ++
                        (match rem_rounds with
                         | some r => " " ++ toString r ++ " rounds"
                         | none => "") ++ ")"],
                   st2, dice1, ids2)

/-- The first-match removal walk of EffectsEngine.detach (list.pop(i) at
the first matching index). -/
def removeFirstInst (instance_id : String) :
    List EffectInstance → Option (List EffectInstance)
  | [] => none
  | inst :: rest =>
    if inst.instance_id = instance_id then some rest
    else
      match removeFirstInst instance_id rest with
      | some rest1 => some (inst :: rest1)
      | none => none

/-- EffectsEngine.detach: pop the first instance with the id from the
target's list; idempotent against a missing id (returns false, no
mutation). -/
def effects_detach (st : GameState) (instance_id : String) (target : Entity) :
    Bool × GameState :=
  let lst := (alookup st.active_effects target.id).getD []
  match removeFirstInst instance_id lst with
  | some lst1 =>
    (true, { st with active_effects := aset st.active_effects target.id lst1 })
  | none => (false, st)

/-- EffectsEngine.list_for_entity. -/
def list_for_entity (st : GameState) (entity_id : String) : List EffectInstance :=
  (alookup st.active_effects entity_id).getD []

/-! ## Claim C10: unknown damage target -/

/-- C10: apply_packets called with a target id that does not resolve to a
known entity returns zero totals with the unknown-target log line and
mutates nothing (the state is returned unchanged: no actor field, resource
pool or instance state is touched). -/
theorem apply_packets_unknown_target (st : GameState) (tid : String)
    (ps : List DamagePacket) (h : damage_entity_by_id st tid = none) :
    apply_packets st tid ps = (⟨0, 0, 0, ["[Dmg] unknown target"]⟩, st) := by
  simp [apply_packets, h]

/-- A small concrete game state for witnesses: a lone player. -/
def wplayer : Entity := { id := "pc.hero", name := "Hero", hp_max := 20, hp_current := 20 }

/-- The witness state owning only the player. -/
def wstate : GameState := { player := wplayer }

/-- Witness for C10: a packet aimed at an id no entity carries. -/
theorem apply_packets_unknown_target_witness :
    apply_packets wstate "npc.ghost" [{ amount := 10, dkind := "physical.slashing" }] =
      (⟨0, 0, 0, ["[Dmg] unknown target"]⟩, wstate) :=
  apply_packets_unknown_target wstate "npc.ghost" _ (by decide)

/-! ## Claim C8: resource spending -/

/-- An entity-bucket pool matching the spend request with sufficient
current amount. -/
def poolMatches (rid : String) (amount : Int) (rs : ResourceState) : Bool :=
  rs.definition_id = some rid ∧ rs.current ≥ amount

/-- An effect-bucket pool matching the spend request for the owner. -/
def effectPoolMatches (eid rid : String) (amount : Int) (rs : ResourceState) : Bool :=
  rs.owner_entity_id = some eid ∧ rs.definition_id = some rid ∧ rs.current ≥ amount

/-- Whether any pool in spend's search domain (the owner's entity bucket,
then every effect bucket) matches with sufficient current. -/
def hasSufficientPool (st : GameState) (eid rid : String) (amount : Int) : Bool :=
  ((alookup st.resources ("entity:" ++ eid)).getD []).any (poolMatches rid amount) ||
  st.resources.any
    (fun kv => strStartsWith kv.1 "effect:" && kv.2.any (effectPoolMatches eid rid amount))

theorem spendEntityBucket_none (rid : String) (amt : Int) :
    ∀ l : List ResourceState, l.any (poolMatches rid amt) = false →
      spendEntityBucket rid amt l = none
  | [], _ => by simp [spendEntityBucket]
  | rs :: rest, h => by
      simp only [List.any_cons, Bool.or_eq_false_iff] at h
      have h1 : ¬ (rs.definition_id = some rid ∧ rs.current ≥ amt) := by
        intro hc
        simp [poolMatches, hc.1, hc.2] at h
      simp only [spendEntityBucket, if_neg h1,
        spendEntityBucket_none rid amt rest h.2]

theorem spendEntityBucket_isSome (rid : String) (amt : Int) :
    ∀ l : List ResourceState, l.any (poolMatches rid amt) = true →
      (spendEntityBucket rid amt l).isSome
  | [], h => by simp at h
  | rs :: rest, h => by
      by_cases hc : rs.definition_id = some rid ∧ rs.current ≥ amt
      · simp [spendEntityBucket, hc]
      · have h1 : rest.any (poolMatches rid amt) = true := by
          simp only [List.any_cons, Bool.or_eq_true] at h
          rcases h with h | h
          · exfalso
            simp only [poolMatches, decide_eq_true_eq] at h
            exact hc h
          · exact h
        have := spendEntityBucket_isSome rid amt rest h1
        rcases hrec : spendEntityBucket rid amt rest with _ | rest1
        · rw [hrec] at this; simp at this
        · simp [spendEntityBucket, hc, hrec]

theorem spendEntityBucket_some (rid : String) (amt : Int) :
    ∀ l l1' : List ResourceState, spendEntityBucket rid amt l = some l1' →
      ∃ l1 rs l2, l = l1 ++ rs :: l2 ∧
        l1' = l1 ++ { rs with current := rs.current - amt } :: l2 ∧
        rs.definition_id = some rid ∧ rs.current ≥ amt
  | [], _, h => by simp [spendEntityBucket] at h
  | rs :: rest, l1', h => by
      by_cases hc : rs.definition_id = some rid ∧ rs.current ≥ amt
      · simp only [spendEntityBucket, if_pos hc, Option.some.injEq] at h
        exact ⟨[], rs, rest, rfl, by simp [← h], hc.1, hc.2⟩
      · simp only [spendEntityBucket, if_neg hc] at h
        rcases hrec : spendEntityBucket rid amt rest with _ | rest1
        · rw [hrec] at h; simp at h
        · rw [hrec] at h
          simp only [Option.some.injEq] at h
          obtain ⟨l1, rs2, l2, heq, heq2, hm1, hm2⟩ :=
            spendEntityBucket_some rid amt rest rest1 hrec
          exact ⟨rs :: l1, rs2, l2, by simp [heq], by simp [← h, heq2], hm1, hm2⟩

theorem spendEffectList_none (eid rid : String) (amt : Int) :
    ∀ l : List ResourceState, l.any (effectPoolMatches eid rid amt) = false →
      spendEffectList eid rid amt l = none
  | [], _ => by simp [spendEffectList]
  | rs :: rest, h => by
      simp only [List.any_cons, Bool.or_eq_false_iff] at h
      have h1 : ¬ (rs.owner_entity_id = some eid ∧ rs.definition_id = some rid ∧
          rs.current ≥ amt) := by
        intro hc
        simp [effectPoolMatches, hc.1, hc.2.1, hc.2.2] at h
      simp only [spendEffectList, if_neg h1,
        spendEffectList_none eid rid amt rest h.2]

theorem spendEffectList_isSome (eid rid : String) (amt : Int) :
    ∀ l : List ResourceState, l.any (effectPoolMatches eid rid amt) = true →
      (spendEffectList eid rid amt l).isSome
  | [], h => by simp at h
  | rs :: rest, h => by
      by_cases hc : rs.owner_entity_id = some eid ∧ rs.definition_id = some rid ∧
          rs.current ≥ amt
      · simp [spendEffectList, hc]
      · have h1 : rest.any (effectPoolMatches eid rid amt) = true := by
          simp only [List.any_cons, Bool.or_eq_true] at h
          rcases h with h | h
          · exfalso
            simp only [effectPoolMatches, decide_eq_true_eq] at h
            exact hc h
          · exact h
        have := spendEffectList_isSome eid rid amt rest h1
        rcases hrec : spendEffectList eid rid amt rest with _ | rest1
        · rw [hrec] at this; simp at this
        · simp [spendEffectList, hc, hrec]

theorem spendEffectList_some (eid rid : String) (amt : Int) :
    ∀ l l1' : List ResourceState, spendEffectList eid rid amt l = some l1' →
      ∃ l1 rs l2, l = l1 ++ rs :: l2 ∧
        l1' = l1 ++ { rs with current := rs.current - amt } :: l2 ∧
        rs.owner_entity_id = some eid ∧ rs.definition_id = some rid ∧ rs.current ≥ amt
  | [], _, h => by simp [spendEffectList] at h
  | rs :: rest, l1', h => by
      by_cases hc : rs.owner_entity_id = some eid ∧ rs.definition_id = some rid ∧
          rs.current ≥ amt
      · simp only [spendEffectList, if_pos hc, Option.some.injEq] at h
        exact ⟨[], rs, rest, rfl, by simp [← h], hc.1, hc.2.1, hc.2.2⟩
      · simp only [spendEffectList, if_neg hc] at h
        rcases hrec : spendEffectList eid rid amt rest with _ | rest1
        · rw [hrec] at h; simp at h
        · rw [hrec] at h
          simp only [Option.some.injEq] at h
          obtain ⟨l1, rs2, l2, heq, heq2, hm1, hm2, hm3⟩ :=
            spendEffectList_some eid rid amt rest rest1 hrec
          exact ⟨rs :: l1, rs2, l2, by simp [heq], by simp [← h, heq2], hm1, hm2, hm3⟩

theorem spendEffectBuckets_none (eid rid : String) (amt : Int) :
    ∀ res : List (String × List ResourceState),
      res.any (fun kv => strStartsWith kv.1 "effect:" &&
        kv.2.any (effectPoolMatches eid rid amt)) = false →
      spendEffectBuckets eid rid amt res = none
  | [], _ => by simp [spendEffectBuckets]
  | (k, lst) :: rest, h => by
      simp only [List.any_cons, Bool.or_eq_false_iff, Bool.and_eq_false_iff] at h
      by_cases hk : strStartsWith k "effect:"
      · have hl : lst.any (effectPoolMatches eid rid amt) = false := by
          rcases h.1 with h1 | h1
          · rw [hk] at h1; cases h1
          · exact h1
        simp only [spendEffectBuckets, if_pos hk, spendEffectList_none eid rid amt lst hl,
          spendEffectBuckets_none eid rid amt rest h.2]
      · simp only [spendEffectBuckets, if_neg hk,
          spendEffectBuckets_none eid rid amt rest h.2]

theorem spendEffectBuckets_isSome (eid rid : String) (amt : Int) :
    ∀ res : List (String × List ResourceState),
      res.any (fun kv => strStartsWith kv.1 "effect:" &&
        kv.2.any (effectPoolMatches eid rid amt)) = true →
      (spendEffectBuckets eid rid amt res).isSome
  | [], h => by simp at h
  | (k, lst) :: rest, h => by
      by_cases hk : strStartsWith k "effect:"
      · rcases hl : lst.any (effectPoolMatches eid rid amt) with _ | _
        · have h1 : rest.any (fun kv => strStartsWith kv.1 "effect:" &&
              kv.2.any (effectPoolMatches eid rid amt)) = true := by
            simp only [List.any_cons, Bool.or_eq_true, Bool.and_eq_true] at h
            rcases h with ⟨_, h2⟩ | h2
            · rw [hl] at h2; cases h2
            · exact h2
          have := spendEffectBuckets_isSome eid rid amt rest h1
          rcases hrec : spendEffectBuckets eid rid amt rest with _ | rest1
          · rw [hrec] at this; simp at this
          · simp [spendEffectBuckets, hk, spendEffectList_none eid rid amt lst hl, hrec]
        · have := spendEffectList_isSome eid rid amt lst hl
          rcases hrec : spendEffectList eid rid amt lst with _ | lst1
          · rw [hrec] at this; simp at this
          · simp [spendEffectBuckets, hk, hrec]
      · have h1 : rest.any (fun kv => strStartsWith kv.1 "effect:" &&
            kv.2.any (effectPoolMatches eid rid amt)) = true := by
          simp only [List.any_cons, Bool.or_eq_true, Bool.and_eq_true] at h
          rcases h with ⟨h2, _⟩ | h2
          · exact absurd h2 hk
          · exact h2
        have := spendEffectBuckets_isSome eid rid amt rest h1
        rcases hrec : spendEffectBuckets eid rid amt rest with _ | rest1
        · rw [hrec] at this; simp at this
        · simp [spendEffectBuckets, hk, hrec]

theorem spendEffectBuckets_some (eid rid : String) (amt : Int) :
    ∀ res res1 : List (String × List ResourceState),
      spendEffectBuckets eid rid amt res = some res1 →
      ∃ pre k l1 rs l2 post,
        res = pre ++ (k, l1 ++ rs :: l2) :: post ∧
        res1 = pre ++ (k, l1 ++ { rs with current := rs.current - amt } :: l2) :: post ∧
        strStartsWith k "effect:" ∧ rs.owner_entity_id = some eid ∧
        rs.definition_id = some rid ∧ rs.current ≥ amt
  | [], _, h => by simp [spendEffectBuckets] at h
  | (k, lst) :: rest, res1, h => by
      by_cases hk : strStartsWith k "effect:"
      · rcases hlist : spendEffectList eid rid amt lst with _ | lst1
        · simp only [spendEffectBuckets, if_pos hk, hlist] at h
          rcases hrec : spendEffectBuckets eid rid amt rest with _ | rest1
          · rw [hrec] at h; simp at h
          · rw [hrec] at h
            simp only [Option.some.injEq] at h
            obtain ⟨pre, k2, l1, rs, l2, post, he1, he2, hm⟩ :=
              spendEffectBuckets_some eid rid amt rest rest1 hrec
            exact ⟨(k, lst) :: pre, k2, l1, rs, l2, post, by simp [he1],
              by simp [← h, he2], hm⟩
        · simp only [spendEffectBuckets, if_pos hk, hlist, Option.some.injEq] at h
          obtain ⟨l1, rs, l2, he1, he2, hm1, hm2, hm3⟩ :=
            spendEffectList_some eid rid amt lst lst1 hlist
          exact ⟨[], k, l1, rs, l2, rest, by simp [he1], by simp [← h, he2], hk, hm1, hm2, hm3⟩
      · simp only [spendEffectBuckets, if_neg hk] at h
        rcases hrec : spendEffectBuckets eid rid amt rest with _ | rest1
        · rw [hrec] at h; simp at h
        · rw [hrec] at h
          simp only [Option.some.injEq] at h
          obtain ⟨pre, k2, l1, rs, l2, post, he1, he2, hm⟩ :=
            spendEffectBuckets_some eid rid amt rest rest1 hrec
          exact ⟨(k, lst) :: pre, k2, l1, rs, l2, post, by simp [he1],
            by simp [← h, he2], hm⟩

theorem alookup_aset_surgery {β : Type} :
    ∀ (res : List (String × β)) (k : String) (v w : β),
      alookup res k = some v →
      ∃ pre post, res = pre ++ (k, v) :: post ∧ aset res k w = pre ++ (k, w) :: post
  | [], _, _, _, h => by simp [alookup] at h
  | (k1, v1) :: rest, k, v, w, h => by
      by_cases hk : k1 = k
      · subst hk
        have h1 : v1 = v := by simpa [alookup] using h
        exact ⟨[], rest, by simp [h1], by simp [aset]⟩
      · simp only [alookup, if_neg hk] at h
        obtain ⟨pre, post, he1, he2⟩ := alookup_aset_surgery rest k v w h
        exact ⟨(k1, v1) :: pre, post, by simp [he1], by simp [aset, hk, he2]⟩

/-- C8: ResourceEngine.spend.  When no pool in the search domain (the
owner's entity bucket, then every effect bucket) matches the resource id
with current at least the amount, the call returns false and mutates
nothing; otherwise it returns true and decrements exactly one matching
pool's current by the amount, leaving every other pool and bucket
untouched. -/
theorem resource_spend_spec (st : GameState) (eid rid : String) (amount : Int) :
    (hasSufficientPool st eid rid amount = false →
      resource_spend st eid rid amount = (false, st)) ∧
    (hasSufficientPool st eid rid amount = true →
      (resource_spend st eid rid amount).1 = true ∧
      ∃ pre k l1 rs l2 post,
        st.resources = pre ++ (k, l1 ++ rs :: l2) :: post ∧
        (resource_spend st eid rid amount).2 =
          { st with resources :=
              pre ++ (k, l1 ++ { rs with current := rs.current - amount } :: l2) :: post } ∧
        rs.definition_id = some rid ∧ rs.current ≥ amount ∧
        (k = "entity:" ++ eid ∨ (strStartsWith k "effect:" ∧ rs.owner_entity_id = some eid))) := by
  constructor
  · intro h
    simp only [hasSufficientPool, Bool.or_eq_false_iff] at h
    simp only [resource_spend,
      spendEntityBucket_none rid amount _ h.1,
      spendEffectBuckets_none eid rid amount st.resources h.2]
  · intro h
    rcases hent : spendEntityBucket rid amount
        ((alookup st.resources ("entity:" ++ eid)).getD []) with _ | bucket1
    · have hF : st.resources.any (fun kv => strStartsWith kv.1 "effect:" &&
          kv.2.any (effectPoolMatches eid rid amount)) = true := by
        simp only [hasSufficientPool, Bool.or_eq_true] at h
        rcases h with h | h
        · exfalso
          have := spendEntityBucket_isSome rid amount _ h
          rw [hent] at this
          simp at this
        · exact h
      have hsome := spendEffectBuckets_isSome eid rid amount st.resources hF
      rcases hbk : spendEffectBuckets eid rid amount st.resources with _ | res1
      · rw [hbk] at hsome; simp at hsome
      · obtain ⟨pre, k, l1, rs, l2, post, he1, he2, hm0, hm1, hm2, hm3⟩ :=
          spendEffectBuckets_some eid rid amount st.resources res1 hbk
        refine ⟨by simp [resource_spend, hent, hbk], pre, k, l1, rs, l2, post, he1, ?_,
          hm2, hm3, Or.inr ⟨hm0, hm1⟩⟩
        simp [resource_spend, hent, hbk, he2]
    · obtain ⟨l1, rs, l2, hbeq, hbeq2, hm1, hm2⟩ :=
        spendEntityBucket_some rid amount _ bucket1 hent
      rcases halk : alookup st.resources ("entity:" ++ eid) with _ | b
      · exfalso
        rw [halk] at hbeq
        simp at hbeq
      · rw [halk] at hbeq
        simp only [Option.getD_some] at hbeq
        obtain ⟨pre, post, he1, he2⟩ :=
          alookup_aset_surgery st.resources ("entity:" ++ eid) b bucket1 halk
        refine ⟨by simp [resource_spend, hent], pre, "entity:" ++ eid, l1, rs, l2, post,
          ?_, ?_, hm1, hm2, Or.inl rfl⟩
        · rw [he1, hbeq]
        · simp only [resource_spend, hent]
          rw [he2, hbeq2]

/-- A concrete spell-slot pool for the spend witness. -/
def wpool : ResourceState :=
  { state_id := "sid1", definition_id := some "res.slots",
    owner_entity_id := some "pc.hero", current := 3, max_computed := 5 }

/-- The witness state with one entity-scoped pool. -/
def wstateR : GameState :=
  { player := wplayer, resources := [("entity:pc.hero", [wpool])] }

/-- Witness for C8: spending 2 of 3 from the hero's pool succeeds. -/
theorem resource_spend_spec_witness :
    hasSufficientPool wstateR "pc.hero" "res.slots" 2 = true ∧
    (resource_spend wstateR "pc.hero" "res.slots" 2).1 = true :=
  ⟨by decide, ((resource_spend_spec wstateR "pc.hero" "res.slots" 2).2 (by decide)).1⟩

/-! ## Claim C2: behavior on malformed / unevaluable formulas -/

/-- An oracle whose expression parser rejects every formula, the model of
handing malformed source text to py_expression_eval. -/
def werrOracle : EngineOracles :=
  { statsAcTotal := fun _ => 10, statsAcTouch := fun _ => 10, statsAcFF := fun _ => 10,
    statsSaveFort := fun _ => 2, statsSaveRef := fun _ => 2, statsSaveWill := fun _ => 2,
    statsAttackMelee := fun _ => 3, statsAttackRanged := fun _ => 3,
    casterLevelOf := fun _ => 1,
    evalE := fun _ _ _ => .error (), evalRaw := fun _ _ => .error () }

/-- An effect whose save gate carries an unevaluable DC expression. -/
def wsaveEffect : EffectDefinition :=
  { id := "eff.save", name := "Test Save",
    gates := some { save := some { type := "Will", dcExpression := "10 + bogus(" } } }

/-- C2 counterexample: the save-DC computation has no exception handler, so
a malformed DC formula makes save_gate raise (Except.error) instead of
reporting the error, defaulting the value to zero and continuing — the
claim that no engine operation ever raises an uncaught exception is false
at this input. -/
theorem save_gate_eval_error_raises :
    save_gate werrOracle wsaveEffect wplayer wplayer [12] = .error () := by
  rfl

/-- C2 amended: on a malformed or unevaluable formula, modifier value
evaluation swallows the error and yields value 0 with no log or warning
line; the save-DC computation, both duration-snapshot computations and the
capacity computation have no handler around the evaluation and propagate
the error (modelled by Except.error) instead of defaulting to zero. -/
theorem eval_error_handling_amended :
    (∀ (o : EngineOracles) (m : Modifier) (actor target : Option Entity)
       (sk sid sname : String) (s : String),
       m.value = ModValue.formula s → o.evalE s actor target = .error () →
       eval_modifier o m actor target sk sid sname =
         (some ⟨m.operator, 0, m.bonusType, m.sourceKey, sk, sid, sname⟩, [])) ∧
    (∀ (o : EngineOracles) (ed : EffectDefinition) (source target : Entity)
       (dice : List Int) (g : Gates) (sg : SaveGate),
       ed.gates = some g → g.save = some sg → sg.dcExpression ≠ "" →
       o.evalE sg.dcExpression (some source) (some target) = .error () →
       save_gate o ed source target dice = .error ()) ∧
    (∀ (o : EngineOracles) (ed : EffectDefinition) (source : Entity)
       (ds : DurationSpec) (f : String),
       ed.duration = some ds → ds.type = "rounds" → ds.value = none → ds.formula = some f →
       o.evalE f (some source) none = .error () →
       eff_snapshot_duration o ed source = .error ()) ∧
    (∀ (o : EngineOracles) (cd : ConditionDefinition) (source : Entity)
       (ds : DurationSpec) (f : String),
       ds.type = "rounds" → ds.value = none → ds.formula = some f →
       o.evalE f (some source) none = .error () →
       cond_snapshot_duration o cd (some ds) source = .error ()) ∧
    (∀ (o : EngineOracles) (rd : ResourceDefinition) (owner : Entity),
       o.evalRaw rd.capacity.formula owner = .error () →
       compute_capacity o rd owner = .error ()) := by
  refine ⟨?_, ?_, ?_, ?_, ?_⟩
  · intro o m actor target sk sid sname s hv he
    simp [eval_modifier, hv, he]
  · intro o ed source target dice g sg hg hs hne he
    simp [save_gate, save_dc_value, hg, hs, hne, he]
  · intro o ed source ds f hd ht hv hf he
    simp [eff_snapshot_duration, hd, ht, hv, hf, he]
  · intro o cd source ds f ht hv hf he
    have hts : ¬ (ds.type = "instantaneous" ∨ ds.type = "permanent" ∨ ds.type = "special") := by
      rw [ht]; decide
    simp [cond_snapshot_duration, hts, ht, hv, hf, he]
  · intro o rd owner he
    simp [compute_capacity, he]

/-- A modifier carrying an unevaluable formula, for the C2 witness. -/
def wbadModifier : Modifier :=
  { targetPath := "save.will", operator := "add",
    value := ModValue.formula "2 + nonsense(", bonusType := some "luck" }

/-- Witness for C2 (amended): the bad modifier evaluates to value 0 with no
warning line, and the save gate propagates the same evaluator error. -/
theorem eval_error_handling_amended_witness :
    eval_modifier werrOracle wbadModifier (some wplayer) (some wplayer) "effect" "e" "E" =
      (some ⟨"add", 0, some "luck", none, "effect", "e", "E"⟩, []) ∧
    save_gate werrOracle wsaveEffect wplayer wplayer [12] = .error () :=
  ⟨eval_error_handling_amended.1 werrOracle wbadModifier (some wplayer) (some wplayer)
      "effect" "e" "E" "2 + nonsense(" rfl rfl,
   eval_error_handling_amended.2.1 werrOracle wsaveEffect wplayer wplayer [12]
      { save := some { type := "Will", dcExpression := "10 + bogus(" } }
      { type := "Will", dcExpression := "10 + bogus(" } rfl rfl (by decide) rfl⟩

/-! ## Claim C7: condition refresh versus stacking -/

theorem refreshFirst_found (cond_id : String) (newv old : Int) :
    ∀ (l1 : List ConditionInstance) (inst : ConditionInstance) (l2 : List ConditionInstance),
      (∀ i ∈ l1, i.definition_id ≠ cond_id) →
      inst.definition_id = cond_id → inst.duration_type = "rounds" →
      inst.remaining_rounds = some old →
      refreshFirst cond_id (some newv) (l1 ++ inst :: l2) =
        some (l1 ++ { inst with remaining_rounds := some (max old newv), active := true } :: l2,
              { inst with remaining_rounds := some (max old newv), active := true })
  | [], inst, l2, _, hdef, hdur, hold => by
      simp only [List.nil_append, refreshFirst, if_pos hdef]
      have hcond : inst.duration_type = "rounds" ∧ (some newv : Option Int) ≠ none := by
        exact ⟨hdur, by simp⟩
      rw [if_pos hcond, hold]
      by_cases hgt : newv > old
      · have hmax : max old newv = newv := by omega
        simp [hgt, hmax]
      · have hmax : max old newv = old := by omega
        obtain ⟨iid, did, nm, sid, tid, prec, tg, dt, rr, act, sup, ar⟩ := inst
        simp only at hold
        subst hold
        simp [hgt, hmax]
  | i :: rest, inst, l2, hmiss, hdef, hdur, hold => by
      have hne : ¬ i.definition_id = cond_id := hmiss i (by simp)
      have ih := refreshFirst_found cond_id newv old rest inst l2
        (fun j hj => hmiss j (by simp [hj])) hdef hdur hold
      simp only [List.cons_append, refreshFirst, if_neg hne, List.append_eq, ih]

/-- C7: ConditionsEngine.apply.  Re-applying a condition already present
without an explicit stacking request refreshes the first matching instance
in place — its remaining rounds become the greater of the old and new
values, it is re-activated, and no second instance is created; with
stacks=True an independent new instance (fresh instance id) is appended
instead and the existing instances are untouched. -/
theorem conditions_apply_spec (o : EngineOracles) (content : ContentIndex) (st : GameState)
    (cond_id newId : String) (source target : Entity) (dur : Option DurationSpec)
    (cd : ConditionDefinition) (dt : String) (newv : Int)
    (hlk : alookup content.conditions cond_id = some cd)
    (hsnap : cond_snapshot_duration o cd dur source = .ok (dt, some newv)) :
    (∀ (stacksFlag : Option Bool) (l1 : List ConditionInstance) (inst : ConditionInstance)
       (l2 : List ConditionInstance) (old : Int),
       stacksFlag.getD false = false →
       (alookup st.active_conditions target.id).getD [] = l1 ++ inst :: l2 →
       (∀ i ∈ l1, i.definition_id ≠ cond_id) →
       inst.definition_id = cond_id → inst.duration_type = "rounds" →
       inst.remaining_rounds = some old →
       conditions_apply o content st cond_id source target dur stacksFlag newId =
         .ok (["[Cond] Refreshed " ++ cd.name ++ " on " ++ target.name ++ " (" ++
                 toString (max old newv) ++ " rounds)"],
              { st with active_conditions := (aset st.active_conditions target.id
                  (l1 ++ ({ inst with remaining_rounds := some (max old newv), active := true } : ConditionInstance) :: l2)) })) ∧
    (conditions_apply o content st cond_id source target dur (some true) newId =
       .ok (["[Cond] " ++ cd.name ++ " applied to " ++ target.name ++ " (" ++ dt ++
               " " ++ toString newv ++ " rounds)"],
            { st with active_conditions := (aset st.active_conditions target.id
                ((alookup st.active_conditions target.id).getD [] ++
                  [{ instance_id := newId,
                       definition_id := cd.id,
                       name := cd.name,
                       source_entity_id := source.id,
                       target_entity_id := target.id,
                       precedence := cd.precedence,
                       tags := cd.tags,
                       duration_type := dt,
                       remaining_rounds := some newv,
                       applied_at_round := st.round_counter }])) })) := by
  constructor
  · intro stacksFlag l1 inst l2 old hstacks hdecomp hmiss hdef hdur hold
    have hrf := refreshFirst_found cond_id newv old l1 inst l2 hmiss hdef hdur hold
    simp only [conditions_apply, hlk, hsnap, hstacks, if_pos rfl, hdecomp, hrf]
    simp
  · simp only [conditions_apply, hlk, hsnap]
    simp [String.append_assoc]

/-- A prone condition definition for the C7 witness. -/
def wcondDef : ConditionDefinition :=
  { id := "cond.prone", name := "Prone",
    default_duration := some { type := "rounds", value := some 2 } }

/-- The witness content carrying the prone condition. -/
def wcontentC : ContentIndex := { conditions := [("cond.prone", wcondDef)] }

/-- An already-applied prone instance with 1 round left. -/
def wcondInst : ConditionInstance :=
  { instance_id := "ci1", definition_id := "cond.prone", name := "Prone",
    source_entity_id := "pc.hero", target_entity_id := "pc.hero",
    duration_type := "rounds", remaining_rounds := some 1 }

/-- The witness state with the prone instance active on the hero. -/
def wstateC : GameState :=
  { player := wplayer, active_conditions := [("pc.hero", [wcondInst])] }

/-- Witness for C7: re-applying prone without stacking refreshes the
instance to max(1, 2) = 2 rounds and creates no second instance. -/
theorem conditions_apply_spec_witness :
    conditions_apply werrOracle wcontentC wstateC "cond.prone" wplayer wplayer none none "ci2" =
      .ok (["[Cond] Refreshed " ++ wcondDef.name ++ " on " ++ wplayer.name ++ " (" ++
              toString (max 1 2) ++ " rounds)"],
           { wstateC with active_conditions := (aset wstateC.active_conditions "pc.hero"
               ([] ++ ({ wcondInst with remaining_rounds := some (max 1 2), active := true } : ConditionInstance) :: [])) }) :=
  (conditions_apply_spec werrOracle wcontentC wstateC "cond.prone" "ci2"
      wplayer wplayer none wcondDef "rounds" 2 rfl rfl).1
      none [] wcondInst [] 1 rfl rfl (by simp) rfl rfl rfl

/-! ## Claim C4: attack gate -/

/-- C4 counterexample: with attack d20 = 15 against AC 10 (an ordinary hit,
not a natural 20) the gate neither rolls a confirmation (the next die, a
natural 20 that would auto-confirm, is left unconsumed) nor sets the
critical flag — the claim that a threat confirmation is attempted on every
hit is false at this input. -/
theorem attack_gate_no_confirm_on_ordinary_hit :
    (attack_gate werrOracle wstate wplayer wplayer
        (some { mode := "melee", ac_type := some "normal" }) [15, 20]).1.hit = true ∧
    (attack_gate werrOracle wstate wplayer wplayer
        (some { mode := "melee", ac_type := some "normal" }) [15, 20]).1.crit = false ∧
    (attack_gate werrOracle wstate wplayer wplayer
        (some { mode := "melee", ac_type := some "normal" }) [15, 20]).2 = [20] := by
  refine ⟨rfl, rfl, rfl⟩

/-- C4 amended: for an attack-gated application whose mode is not none, a
natural 1 always misses; otherwise, with no concealment in play, the attack
hits exactly when the natural roll is 20 or roll plus the resolved bonus
meets the chosen AC; a threat-confirmation die is consumed exactly on
natural-20 hits — an ordinary hit consumes no confirmation roll and can
never be critical — and the critical multiplier applies only when that
confirmation meets the AC or is itself a natural 20; a concealment miss
chance, when present, is rolled after the natural-1 check and forces a
miss when the d100 rolls at or under it. -/
theorem attack_gate_amended (o : EngineOracles) (st : GameState) (source target : Entity)
    (ag : AttackGate) (r : Int) (rest : List Int) (hmode : ag.mode ≠ "none") :
    (r = 1 →
      (attack_gate o st source target (some ag) (r :: rest)).1.hit = false ∧
      (attack_gate o st source target (some ag) (r :: rest)).2 = rest) ∧
    (r ≠ 1 → concealment_pct st target = 0 →
      ((attack_gate o st source target (some ag) (r :: rest)).1.hit = true ↔
        (r + attack_bonus o ag source ≥ attack_ac_val o ag target ∨ r = 20)) ∧
      ((attack_gate o st source target (some ag) (r :: rest)).1.crit = true → r = 20) ∧
      (r = 20 →
        (attack_gate o st source target (some ag) (r :: rest)).2 = (d20 rest).2 ∧
        ((attack_gate o st source target (some ag) (r :: rest)).1.crit = true ↔
          ((d20 rest).1 + attack_bonus o ag source ≥ attack_ac_val o ag target ∨
            (d20 rest).1 = 20))) ∧
      (r ≠ 20 → (attack_gate o st source target (some ag) (r :: rest)).1.hit = true →
        (attack_gate o st source target (some ag) (r :: rest)).2 = rest)) ∧
    (r ≠ 1 → 0 < concealment_pct st target →
      (d100 rest).1 ≤ concealment_pct st target →
      (attack_gate o st source target (some ag) (r :: rest)).1.hit = false ∧
      (attack_gate o st source target (some ag) (r :: rest)).1.concealment_miss = true) := by
  refine ⟨?_, ?_, ?_⟩
  · intro hr
    subst hr
    simp [attack_gate, hmode, d20]
  · intro hr hconc
    have hnot : ¬ (0 : Int) < concealment_pct st target := by rw [hconc]; omega
    by_cases h20 : r = 20
    · subst h20
      have hhit : (20 : Int) + attack_bonus o ag source ≥ attack_ac_val o ag target ∨
          (20 : Int) = 20 := Or.inr rfl
      cases rest with
      | nil =>
        by_cases hcf : attack_ac_val o ag target ≤ (1 : Int) + attack_bonus o ag source
        · simp [attack_gate, hmode, d20, hr, hnot, hhit, hcf]
        · simp [attack_gate, hmode, d20, hr, hnot, hhit, hcf]
      | cons c rest1 =>
        by_cases hc20 : c = 20
        · subst hc20
          simp [attack_gate, hmode, d20, hr, hnot, hhit]
        · by_cases hcf : attack_ac_val o ag target ≤ c + attack_bonus o ag source
          · simp [attack_gate, hmode, d20, hr, hnot, hhit, hcf, hc20]
          · simp [attack_gate, hmode, d20, hr, hnot, hhit, hcf, hc20]
    · by_cases hge : attack_ac_val o ag target ≤ r + attack_bonus o ag source
      · have hnlt : ¬ (r + attack_bonus o ag source < attack_ac_val o ag target) :=
          not_lt.mpr hge
        simp [attack_gate, hmode, d20, hr, hnot, hge, h20, hnlt]
      · have hnhit : ¬ (r + attack_bonus o ag source ≥ attack_ac_val o ag target ∨ r = 20) := by
          intro h
          rcases h with h | h
          · exact hge h
          · exact h20 h
        simp [attack_gate, hmode, d20, hr, hnot, hge, h20, hnhit, not_lt.mp]
  · intro hr hpos hmiss
    simp [attack_gate, hmode, d20, hr, hpos, hmiss]

/-- The melee attack gate used by the C4 witness. -/
def wattackGate : AttackGate := { mode := "melee", ac_type := some "normal" }

/-- Witness for C4 (amended): a natural 1 misses outright and consumes only
the attack die. -/
theorem attack_gate_amended_witness :
    wattackGate.mode ≠ "none" ∧
    ((attack_gate werrOracle wstate wplayer wplayer (some wattackGate) (1 :: [])).1.hit = false ∧
     (attack_gate werrOracle wstate wplayer wplayer (some wattackGate) (1 :: [])).2 = []) :=
  ⟨by decide,
   (attack_gate_amended werrOracle wstate wplayer wplayer wattackGate 1 [] (by decide)).1 rfl⟩

/-! ## Claim C5: a successful negates save blocks everything -/

/-- C5: when an attached effect declares a negates save branch and the
target's saving throw succeeds (no natural 1, and natural 20 or total at
least the DC), attach consumes only the save die and returns with the game
state completely unchanged: the target's hit points are untouched, none of
the effect's operations ran (no state field of any kind moved, no instance
id was drawn) and no effect instance was stored. -/
theorem attach_negates_save_blocks (o : EngineOracles) (content : ContentIndex)
    (st : GameState) (effect_id : String) (source target : Entity)
    (r dc : Int) (rest : List Int) (ids : List String)
    (ed : EffectDefinition) (g : Gates) (sg : SaveGate)
    (hlk : alookup content.effects effect_id = some ed)
    (hg : ed.gates = some g) (hsr : g.sr = none) (hsv : g.save = some sg)
    (hbr : sg.effect = "negates")
    (hdc : save_dc_value o sg source target = .ok dc)
    (hr1 : r ≠ 1)
    (hwin : r = 20 ∨ r + saveTotalFor o target sg.type ≥ dc) :
    ∃ srnote svnote : String,
      effects_attach o content st effect_id source target (r :: rest) ids =
        .ok ([srnote, svnote, "[Effects] " ++ ed.name ++ " did not take effect"],
             st, rest, ids) := by
  refine ⟨"SR:N/A",
    sg.type ++ " save d20(" ++ toString r ++ ") + " ++
      toString (saveTotalFor o target sg.type) ++ " = " ++
      toString (r + saveTotalFor o target sg.type) ++ " vs DC " ++ toString dc ++
      " -> success (" ++ "negates" ++ ")", ?_⟩
  have hbr1 : (if sg.effect = "" then "negates" else sg.effect) = "negates" := by
    rw [hbr]
    decide
  have happ : (match ed.gates with
               | none => false
               | some g => match g.sr with
                           | none => false
                           | some s => s.applies) = false := by
    rw [hg]
    simp [hsr]
  have hwin1 : (decide (r = 20) || decide (dc ≤ r + saveTotalFor o target sg.type)) = true := by
    rcases hwin with h | h
    · simp [h]
    · simp [h]
  simp [effects_attach, gates_evaluate, sr_gate, save_gate, hlk, happ, hg, hsr, hsv, hdc,
    hbr1, d20, hr1, hwin1, String.append_assoc]

/-- A hold effect with a Will-negates save, damaging operations and a
3-round duration, for the C5 witness. -/
def wholdEffect : EffectDefinition :=
  { id := "eff.hold", name := "Hold",
    duration := some { type := "rounds", value := some 3 },
    gates := some { save := some { type := "Will", dcExpression := "", effect := "negates" } },
    operations := [Operation.damage (ExprV.num 10) "physical.slashing" none none none] }

/-- The witness content carrying the hold effect. -/
def wcontentE : ContentIndex := { effects := [("eff.hold", wholdEffect)] }

/-- Witness for C5: a Will save of 10 + 2 against DC 0 succeeds, and attach
returns the state unchanged with no instance stored. -/
theorem attach_negates_save_blocks_witness :
    ∃ srnote svnote : String,
      effects_attach werrOracle wcontentE wstate "eff.hold" wplayer wplayer (10 :: []) ["id1"] =
        .ok ([srnote, svnote, "[Effects] " ++ wholdEffect.name ++ " did not take effect"],
             wstate, [], ["id1"]) :=
  attach_negates_save_blocks werrOracle wcontentE wstate "eff.hold" wplayer wplayer 10 0 []
    ["id1"] wholdEffect
    { save := some { type := "Will", dcExpression := "", effect := "negates" } }
    { type := "Will", dcExpression := "", effect := "negates" }
    rfl rfl rfl rfl rfl rfl (by decide) (Or.inr (by decide))

/-! ## Claim C6: round ticking, expiry, and atomic hook release -/

theorem alookup_aset {β : Type} :
    ∀ (m : List (String × β)) (k k1 : String) (v : β),
      alookup (aset m k v) k1 = if k = k1 then some v else alookup m k1
  | [], k, k1, v => by simp [aset, alookup]
  | (k2, v2) :: rest, k, k1, v => by
      by_cases h2 : k2 = k
      · subst h2
        by_cases h1 : k2 = k1
        · subst h1
          simp [aset, alookup]
        · simp [aset, alookup, h1]
      · by_cases h1 : k2 = k1
        · subst h1
          have hne : ¬ k = k2 := fun h => h2 h.symm
          simp [aset, alookup, h2, hne]
        · simp [aset, alookup, h2, h1, alookup_aset rest k k1 v]

theorem alookup_aremove_ne {β : Type} :
    ∀ (m : List (String × β)) (k k1 : String), k ≠ k1 →
      alookup (aremove m k1) k = alookup m k
  | [], _, _, _ => by simp [aremove, alookup]
  | (k2, v2) :: rest, k, k1, h => by
      by_cases h2 : k2 = k1
      · subst h2
        have : ¬ k2 = k := fun hh => h (hh.symm)
        simp [aremove, alookup, this]
      · simp [aremove, alookup, h2, alookup_aremove_ne rest k k1 h]

theorem alookup_mem_keys {β : Type} :
    ∀ (m : List (String × β)) (k : String) (v : β),
      alookup m k = some v → k ∈ m.map Prod.fst
  | [], _, _, h => by simp [alookup] at h
  | (k1, v1) :: rest, k, v, h => by
      by_cases h1 : k1 = k
      · simp [h1]
      · simp only [alookup, if_neg h1] at h
        simp [alookup_mem_keys rest k v h]

theorem alookup_aremove_self {β : Type} :
    ∀ (m : List (String × β)) (k : String), (m.map Prod.fst).Nodup →
      alookup (aremove m k) k = none
  | [], _, _ => by simp [aremove, alookup]
  | (k2, v2) :: rest, k, h => by
      simp only [List.map_cons, List.nodup_cons] at h
      by_cases h2 : k2 = k
      · subst h2
        rcases halk : alookup rest k2 with _ | v
        · simpa [aremove] using halk
        · exact absurd (alookup_mem_keys rest k2 v halk) h.1
      · simp [aremove, alookup, h2, alookup_aremove_self rest k h.2]

theorem aremove_keys_nodup {β : Type} :
    ∀ (m : List (String × β)) (k : String), (m.map Prod.fst).Nodup →
      ((aremove m k).map Prod.fst).Nodup
  | [], _, h => by simpa [aremove] using h
  | (k2, v2) :: rest, k, h => by
      simp only [List.map_cons, List.nodup_cons] at h
      by_cases h2 : k2 = k
      · subst h2
        simpa [aremove] using h.2
      · simp only [aremove, if_neg h2, List.map_cons, List.nodup_cons]
        refine ⟨?_, aremove_keys_nodup rest k h.2⟩
        intro hmem
        apply h.1
        clear h
        induction rest with
        | nil => simp [aremove] at hmem
        | cons p rest1 ih =>
          by_cases hp : p.1 = k
          · rcases p with ⟨pk, pv⟩
            simp only at hp
            subst hp
            simp [aremove] at hmem
            simp [hmem]
          · rcases p with ⟨pk, pv⟩
            simp only at hp
            simp only [aremove, if_neg hp, List.map_cons, List.mem_cons] at hmem
            rcases hmem with hmem | hmem
            · simp [hmem]
            · simp [ih hmem]

theorem unregister_step_parent (reg : HooksRegistry) (e : String × String × String) :
    (unregister_step reg e).parent_index = reg.parent_index := rfl

theorem unregister_step_mono (reg : HooksRegistry) (e : String × String × String)
    (scope tid : String) (h : RegisteredHook)
    (hmem : h ∈ bucketOf (unregister_step reg e) scope tid) :
    h ∈ bucketOf reg scope tid := by
  rcases e with ⟨es, et, eh⟩
  simp only [unregister_step, bucketOf] at hmem
  by_cases hs : es = scope
  · subst hs
    by_cases ht : et = tid
    · subst ht
      simp only [alookup_aset, eq_self_iff_true, if_true, Option.getD_some] at hmem
      simp only [bucketOf]
      exact List.mem_of_mem_filter hmem
    · simp only [alookup_aset, eq_self_iff_true, if_true, if_neg ht, Option.getD_some] at hmem
      exact hmem
  · simp only [alookup_aset, if_neg hs] at hmem
    exact hmem

theorem unregister_step_removes (reg : HooksRegistry) (e : String × String × String)
    (h : RegisteredHook) (hmem : h ∈ bucketOf (unregister_step reg e) e.1 e.2.1) :
    h.hook_id ≠ e.2.2 := by
  rcases e with ⟨es, et, eh⟩
  simp only [unregister_step, bucketOf] at hmem
  simp only [alookup_aset, eq_self_iff_true, if_true, Option.getD_some] at hmem
  have := List.of_mem_filter hmem
  simpa using this

theorem foldl_unregister_mono (scope tid : String) (h : RegisteredHook) :
    ∀ (es : List (String × String × String)) (reg : HooksRegistry),
      h ∈ bucketOf (es.foldl unregister_step reg) scope tid → h ∈ bucketOf reg scope tid
  | [], reg, hm => hm
  | e :: rest, reg, hm =>
      unregister_step_mono reg e scope tid h
        (foldl_unregister_mono scope tid h rest (unregister_step reg e) hm)

theorem foldl_unregister_parent (es : List (String × String × String)) :
    ∀ reg : HooksRegistry, (es.foldl unregister_step reg).parent_index = reg.parent_index := by
  induction es with
  | nil => intro reg; rfl
  | cons e rest ih => intro reg; rw [List.foldl_cons, ih, unregister_step_parent]

theorem foldl_unregister_removes (h : RegisteredHook) :
    ∀ (es : List (String × String × String)) (reg : HooksRegistry) (e : String × String × String),
      e ∈ es → h ∈ bucketOf (es.foldl unregister_step reg) e.1 e.2.1 → h.hook_id ≠ e.2.2
  | [], _, _, hmem, _ => by simp at hmem
  | e1 :: rest, reg, e, hmem, hbuck => by
      rcases List.mem_cons.mp hmem with heq | htail
      · subst heq
        exact unregister_step_removes reg e h
          (foldl_unregister_mono e.1 e.2.1 h rest (unregister_step reg e) hbuck)
      · exact foldl_unregister_removes h rest (unregister_step reg e1) e htail hbuck

theorem unregister_by_parent_parent_none (reg : HooksRegistry) (pid : String)
    (hnodup : (reg.parent_index.map Prod.fst).Nodup) :
    alookup (unregister_by_parent reg pid).parent_index pid = none := by
  simp only [unregister_by_parent, foldl_unregister_parent]
  exact alookup_aremove_self reg.parent_index pid hnodup

theorem unregister_by_parent_parent_ne (reg : HooksRegistry) (pid p : String) (hne : p ≠ pid) :
    alookup (unregister_by_parent reg pid).parent_index p = alookup reg.parent_index p := by
  simp only [unregister_by_parent, foldl_unregister_parent]
  exact alookup_aremove_ne reg.parent_index p pid hne

theorem unregister_by_parent_nodup (reg : HooksRegistry) (pid : String)
    (hnodup : (reg.parent_index.map Prod.fst).Nodup) :
    ((unregister_by_parent reg pid).parent_index.map Prod.fst).Nodup := by
  simp only [unregister_by_parent, foldl_unregister_parent]
  exact aremove_keys_nodup reg.parent_index pid hnodup

theorem unregister_by_parent_mono (reg : HooksRegistry) (pid : String)
    (scope tid : String) (h : RegisteredHook)
    (hmem : h ∈ bucketOf (unregister_by_parent reg pid) scope tid) :
    h ∈ bucketOf reg scope tid := by
  simp only [unregister_by_parent] at hmem
  have h1 := foldl_unregister_mono scope tid h _ _ hmem
  simpa [bucketOf] using h1

theorem unregister_by_parent_removes (reg : HooksRegistry) (pid : String)
    (e : String × String × String) (he : e ∈ (alookup reg.parent_index pid).getD [])
    (h : RegisteredHook)
    (hmem : h ∈ bucketOf (unregister_by_parent reg pid) e.1 e.2.1) :
    h.hook_id ≠ e.2.2 := by
  simp only [unregister_by_parent] at hmem
  exact foldl_unregister_removes h _ _ e he hmem

theorem tick_list_decrement (hp : Bool) (inst : EffectInstance) (r : Int)
    (hdur : inst.duration_type = "rounds") (hrem : inst.remaining_rounds = some r)
    (hr : r > 1) :
    ∀ (lst : List EffectInstance) (reg : HooksRegistry), inst ∈ lst →
      { inst with remaining_rounds := some (r - 1) } ∈ (effects_tick_list hp lst reg).1
  | [], _, hmem => by simp at hmem
  | i :: rest, reg, hmem => by
      rcases List.mem_cons.mp hmem with heq | htail
      · subst heq
        have hr0 : r > 0 := by omega
        have hr1 : ¬ (r - 1 ≤ 0) := by omega
        simp only [effects_tick_list, hdur, hrem, if_pos rfl, if_pos hr0, if_neg hr1]
        simp
      · by_cases hd : i.duration_type = "rounds"
        · rcases hir : i.remaining_rounds with _ | ri
          · simp only [effects_tick_list, hd, hir, if_pos rfl]
            exact List.mem_cons_of_mem i
              (tick_list_decrement hp inst r hdur hrem hr rest reg htail)
          · simp only [effects_tick_list, hd, hir, if_pos rfl]
            by_cases hexp : (if ri > 0 then ri - 1 else ri) ≤ 0
            · simp only [if_pos hexp]
              exact tick_list_decrement hp inst r hdur hrem hr rest _ htail
            · simp only [if_neg hexp]
              exact List.mem_cons_of_mem _
                (tick_list_decrement hp inst r hdur hrem hr rest reg htail)
        · simp only [effects_tick_list, if_neg hd]
          exact List.mem_cons_of_mem i
            (tick_list_decrement hp inst r hdur hrem hr rest reg htail)

theorem tick_list_ids (hp : Bool) :
    ∀ (lst : List EffectInstance) (reg : HooksRegistry) (j : EffectInstance),
      j ∈ (effects_tick_list hp lst reg).1 →
      ∃ i ∈ lst, j.instance_id = i.instance_id ∧
        ¬ (i.duration_type = "rounds" ∧ ∃ rr : Int, i.remaining_rounds = some rr ∧
             (if rr > 0 then rr - 1 else rr) ≤ 0)
  | [], _, _, hmem => by simp [effects_tick_list] at hmem
  | i :: rest, reg, j, hmem => by
      by_cases hd : i.duration_type = "rounds"
      · rcases hir : i.remaining_rounds with _ | ri
        · simp only [effects_tick_list, hd, hir, if_pos rfl] at hmem
          rcases List.mem_cons.mp hmem with heq | htail
          · subst heq
            exact ⟨j, by simp, rfl, by simp [hir]⟩
          · obtain ⟨i2, hi2, heq, hnex⟩ := tick_list_ids hp rest reg j htail
            exact ⟨i2, by simp [hi2], heq, hnex⟩
        · simp only [effects_tick_list, hd, hir, if_pos rfl] at hmem
          by_cases hexp : (if ri > 0 then ri - 1 else ri) ≤ 0
          · rw [if_pos hexp] at hmem
            obtain ⟨i2, hi2, heq, hnex⟩ := tick_list_ids hp rest _ j hmem
            exact ⟨i2, by simp [hi2], heq, hnex⟩
          · rw [if_neg hexp] at hmem
            rcases List.mem_cons.mp hmem with heq | htail
            · subst heq
              refine ⟨i, by simp, rfl, ?_⟩
              intro hcon
              obtain ⟨_, rr, hrr, hle⟩ := hcon
              rw [hir] at hrr
              cases hrr
              exact hexp hle
            · obtain ⟨i2, hi2, heq, hnex⟩ := tick_list_ids hp rest reg j htail
              exact ⟨i2, by simp [hi2], heq, hnex⟩
      · simp only [effects_tick_list, if_neg hd] at hmem
        rcases List.mem_cons.mp hmem with heq | htail
        · subst heq
          exact ⟨j, by simp, rfl, by simp [hd]⟩
        · obtain ⟨i2, hi2, heq, hnex⟩ := tick_list_ids hp rest reg j htail
          exact ⟨i2, by simp [hi2], heq, hnex⟩

theorem alookup_aremove_of_none {β : Type} :
    ∀ (m : List (String × β)) (k p : String), alookup m p = none →
      alookup (aremove m k) p = none
  | [], _, _, _ => by simp [aremove, alookup]
  | (k1, v1) :: rest, k, p, h => by
      by_cases h1 : k1 = p
      · subst h1
        simp [alookup] at h
      · simp only [alookup, if_neg h1] at h
        by_cases hk : k1 = k
        · subst hk
          simpa [aremove] using h
        · simp only [aremove, if_neg hk, alookup, if_neg h1]
          exact alookup_aremove_of_none rest k p h

theorem unregister_by_parent_parent_of_none (reg : HooksRegistry) (pid p : String)
    (h : alookup reg.parent_index p = none) :
    alookup (unregister_by_parent reg pid).parent_index p = none := by
  simp only [unregister_by_parent, foldl_unregister_parent]
  exact alookup_aremove_of_none reg.parent_index pid p h

theorem tick_list_parent_none :
    ∀ (lst : List EffectInstance) (reg : HooksRegistry) (p : String),
      alookup reg.parent_index p = none →
      alookup ((effects_tick_list true lst reg).2.1).parent_index p = none
  | [], _, _, h => h
  | i :: rest, reg, p, h => by
      by_cases hd : i.duration_type = "rounds"
      · rcases hir : i.remaining_rounds with _ | ri
        · simp only [effects_tick_list, hd, hir, if_pos rfl]
          exact tick_list_parent_none rest reg p h
        · simp only [effects_tick_list, hd, hir, if_pos rfl]
          by_cases hexp : (if ri > 0 then ri - 1 else ri) ≤ 0
          · rw [if_pos hexp]
            exact tick_list_parent_none rest _ p
              (by simpa using unregister_by_parent_parent_of_none reg i.instance_id p h)
          · rw [if_neg hexp]
            exact tick_list_parent_none rest reg p h
      · simp only [effects_tick_list, if_neg hd]
        exact tick_list_parent_none rest reg p h

theorem tick_list_mono :
    ∀ (lst : List EffectInstance) (reg : HooksRegistry) (s t : String) (h : RegisteredHook),
      h ∈ bucketOf ((effects_tick_list true lst reg).2.1) s t → h ∈ bucketOf reg s t
  | [], _, _, _, _, hm => hm
  | i :: rest, reg, s, t, h, hm => by
      by_cases hd : i.duration_type = "rounds"
      · rcases hir : i.remaining_rounds with _ | ri
        · simp only [effects_tick_list, hd, hir, if_pos rfl] at hm
          exact tick_list_mono rest reg s t h hm
        · simp only [effects_tick_list, hd, hir, if_pos rfl] at hm
          by_cases hexp : (if ri > 0 then ri - 1 else ri) ≤ 0
          · rw [if_pos hexp] at hm
            exact unregister_by_parent_mono reg i.instance_id s t h
              (tick_list_mono rest _ s t h hm)
          · rw [if_neg hexp] at hm
            exact tick_list_mono rest reg s t h hm
      · simp only [effects_tick_list, if_neg hd] at hm
        exact tick_list_mono rest reg s t h hm

theorem tick_list_parent_ne :
    ∀ (lst : List EffectInstance) (reg : HooksRegistry) (p : String),
      (∀ i ∈ lst, i.instance_id ≠ p) →
      alookup ((effects_tick_list true lst reg).2.1).parent_index p =
        alookup reg.parent_index p
  | [], _, _, _ => rfl
  | i :: rest, reg, p, hne => by
      have hni : i.instance_id ≠ p := hne i (by simp)
      have hrest : ∀ j ∈ rest, j.instance_id ≠ p := fun j hj => hne j (by simp [hj])
      by_cases hd : i.duration_type = "rounds"
      · rcases hir : i.remaining_rounds with _ | ri
        · simp only [effects_tick_list, hd, hir, if_pos rfl]
          exact tick_list_parent_ne rest reg p hrest
        · simp only [effects_tick_list, hd, hir, if_pos rfl]
          by_cases hexp : (if ri > 0 then ri - 1 else ri) ≤ 0
          · rw [if_pos hexp]
            exact (tick_list_parent_ne rest (unregister_by_parent reg i.instance_id) p
                hrest).trans
              (unregister_by_parent_parent_ne reg i.instance_id p (fun hh => hni hh.symm))
          · rw [if_neg hexp]
            exact tick_list_parent_ne rest reg p hrest
      · simp only [effects_tick_list, if_neg hd]
        exact tick_list_parent_ne rest reg p hrest

theorem tick_list_parent_nodup :
    ∀ (lst : List EffectInstance) (reg : HooksRegistry),
      (reg.parent_index.map Prod.fst).Nodup →
      (((effects_tick_list true lst reg).2.1).parent_index.map Prod.fst).Nodup
  | [], _, h => h
  | i :: rest, reg, h => by
      by_cases hd : i.duration_type = "rounds"
      · rcases hir : i.remaining_rounds with _ | ri
        · simp only [effects_tick_list, hd, hir, if_pos rfl]
          exact tick_list_parent_nodup rest reg h
        · simp only [effects_tick_list, hd, hir, if_pos rfl]
          by_cases hexp : (if ri > 0 then ri - 1 else ri) ≤ 0
          · rw [if_pos hexp]
            exact tick_list_parent_nodup rest _
              (by simpa using unregister_by_parent_nodup reg i.instance_id h)
          · rw [if_neg hexp]
            exact tick_list_parent_nodup rest reg h
      · simp only [effects_tick_list, if_neg hd]
        exact tick_list_parent_nodup rest reg h

theorem tick_list_hooks (inst : EffectInstance) (r : Int)
    (hdur : inst.duration_type = "rounds") (hrem : inst.remaining_rounds = some r)
    (hr : r ≤ 1) :
    ∀ (lst : List EffectInstance) (reg : HooksRegistry), inst ∈ lst →
      (∀ i ∈ lst, i.instance_id = inst.instance_id → i = inst) →
      (reg.parent_index.map Prod.fst).Nodup →
      alookup ((effects_tick_list true lst reg).2.1).parent_index inst.instance_id = none ∧
      ∀ e ∈ (alookup reg.parent_index inst.instance_id).getD [],
        ∀ h ∈ bucketOf ((effects_tick_list true lst reg).2.1) e.1 e.2.1, h.hook_id ≠ e.2.2
  | [], _, hmem, _, _ => by simp at hmem
  | i :: rest, reg, hmem, huniq, hnodup => by
      by_cases hi : i = inst
      · subst hi
        have hexp : (if r > 0 then r - 1 else r) ≤ 0 := by
          by_cases h0 : r > 0
          · rw [if_pos h0]; omega
          · rw [if_neg h0]; omega
        simp only [effects_tick_list, hdur, hrem, if_pos rfl, if_pos hexp]
        constructor
        · exact tick_list_parent_none rest _ i.instance_id
            (by simpa using unregister_by_parent_parent_none reg i.instance_id hnodup)
        · intro e he h hbuck
          have h1 := tick_list_mono rest _ e.1 e.2.1 h hbuck
          exact unregister_by_parent_removes reg i.instance_id e he h (by simpa using h1)
      · have htail : inst ∈ rest := by
          rcases List.mem_cons.mp hmem with heq | ht
          · exact absurd heq.symm hi
          · exact ht
        have hid : i.instance_id ≠ inst.instance_id := by
          intro hcon
          exact hi (huniq i (by simp) hcon)
        have huniq2 : ∀ j ∈ rest, j.instance_id = inst.instance_id → j = inst :=
          fun j hj => huniq j (by simp [hj])
        by_cases hd : i.duration_type = "rounds"
        · rcases hir : i.remaining_rounds with _ | ri
          · simp only [effects_tick_list, hd, hir, if_pos rfl]
            exact tick_list_hooks inst r hdur hrem hr rest reg htail huniq2 hnodup
          · simp only [effects_tick_list, hd, hir, if_pos rfl]
            by_cases hexp : (if ri > 0 then ri - 1 else ri) ≤ 0
            · rw [if_pos hexp]
              have hnd2 := unregister_by_parent_nodup reg i.instance_id hnodup
              have ih := tick_list_hooks inst r hdur hrem hr rest
                (unregister_by_parent reg i.instance_id) htail huniq2 hnd2
              have hee : alookup (unregister_by_parent reg i.instance_id).parent_index
                  inst.instance_id = alookup reg.parent_index inst.instance_id :=
                unregister_by_parent_parent_ne reg i.instance_id inst.instance_id
                  (fun hh => hid hh.symm)
              refine ⟨ih.1, ?_⟩
              intro e he h hbuck
              have he2 : e ∈ (alookup (unregister_by_parent reg i.instance_id).parent_index
                  inst.instance_id).getD [] := by
                rw [hee]
                exact he
              exact ih.2 e he2 h hbuck
            · rw [if_neg hexp]
              exact tick_list_hooks inst r hdur hrem hr rest reg htail huniq2 hnodup
        · simp only [effects_tick_list, if_neg hd]
          exact tick_list_hooks inst r hdur hrem hr rest reg htail huniq2 hnodup

/-- The per-entity walk of tick_round, written as a recursion for proofs
(pointwise equal to the foldl in effects_tick_round). -/
def tickEntries (hp : Bool) :
    List (String × List EffectInstance) → HooksRegistry →
    List (String × List EffectInstance)
  | [], _ => []
  | (k, l) :: rest, reg =>
    (k, (effects_tick_list hp l reg).1) ::
      tickEntries hp rest (effects_tick_list hp l reg).2.1

theorem tick_list_append_reg :
    ∀ (l1 l2 : List EffectInstance) (reg : HooksRegistry),
      (effects_tick_list true (l1 ++ l2) reg).2.1 =
        (effects_tick_list true l2 ((effects_tick_list true l1 reg).2.1)).2.1
  | [], _, _ => rfl
  | i :: rest, l2, reg => by
      by_cases hd : i.duration_type = "rounds"
      · rcases hir : i.remaining_rounds with _ | ri
        · simp only [List.cons_append, effects_tick_list, hd, hir, if_pos rfl]
          exact tick_list_append_reg rest l2 reg
        · simp only [List.cons_append, effects_tick_list, hd, hir, if_pos rfl]
          by_cases hexp : (if ri > 0 then ri - 1 else ri) ≤ 0
          · rw [if_pos hexp, if_pos hexp]
            exact tick_list_append_reg rest l2 _
          · rw [if_neg hexp, if_neg hexp]
            exact tick_list_append_reg rest l2 reg
      · simp only [List.cons_append, effects_tick_list, if_neg hd]
        exact tick_list_append_reg rest l2 reg

theorem tick_round_fold_list (hp : Bool) :
    ∀ (entries : List (String × List EffectInstance))
      (pre : List (String × List EffectInstance)) (reg : HooksRegistry) (logs : List String),
      (entries.foldl
        (fun acc kv =>
          let r := effects_tick_list hp kv.2 acc.2.1
          (acc.1 ++ [(kv.1, r.1)], r.2.1, acc.2.2 ++ r.2.2))
        (pre, reg, logs)).1 = pre ++ tickEntries hp entries reg
  | [], pre, _, _ => by simp [tickEntries]
  | (k, l) :: rest, pre, reg, logs => by
      simp only [List.foldl_cons, tickEntries]
      rw [tick_round_fold_list hp rest (pre ++ [(k, (effects_tick_list hp l reg).1)]) _ _]
      simp

theorem tick_round_fold_reg :
    ∀ (entries : List (String × List EffectInstance))
      (pre : List (String × List EffectInstance)) (reg : HooksRegistry) (logs : List String),
      (entries.foldl
        (fun acc kv =>
          let r := effects_tick_list true kv.2 acc.2.1
          (acc.1 ++ [(kv.1, r.1)], r.2.1, acc.2.2 ++ r.2.2))
        (pre, reg, logs)).2.1 =
        (effects_tick_list true (entries.flatMap (fun kv => kv.2)) reg).2.1
  | [], _, _, _ => rfl
  | (k, l) :: rest, pre, reg, logs => by
      simp only [List.foldl_cons, List.flatMap_cons]
      rw [tick_round_fold_reg rest _ _ _, tick_list_append_reg]

theorem effects_tick_round_list (hp : Bool) (st : GameState) (reg : HooksRegistry) :
    (effects_tick_round hp st reg).1.active_effects = tickEntries hp st.active_effects reg := by
  simp only [effects_tick_round]
  rw [tick_round_fold_list hp st.active_effects [] reg []]
  simp

theorem effects_tick_round_reg (st : GameState) (reg : HooksRegistry) :
    (effects_tick_round true st reg).2.1 =
      (effects_tick_list true (st.active_effects.flatMap (fun kv => kv.2)) reg).2.1 := by
  simp only [effects_tick_round]
  rw [tick_round_fold_reg st.active_effects [] reg []]

theorem tickEntries_alookup (hp : Bool) :
    ∀ (m : List (String × List EffectInstance)) (reg : HooksRegistry) (k : String)
      (lst : List EffectInstance), alookup m k = some lst →
      ∃ reg1, alookup (tickEntries hp m reg) k = some (effects_tick_list hp lst reg1).1
  | [], _, _, _, h => by simp [alookup] at h
  | (k1, l) :: rest, reg, k, lst, h => by
      by_cases h1 : k1 = k
      · subst h1
        have : l = lst := by simpa [alookup] using h
        subst this
        exact ⟨reg, by simp [tickEntries, alookup]⟩
      · simp only [alookup, if_neg h1] at h
        obtain ⟨reg1, hr⟩ :=
          tickEntries_alookup hp rest ((effects_tick_list hp l reg).2.1) k lst h
        exact ⟨reg1, by simp [tickEntries, alookup, h1, hr]⟩

theorem alookup_mem_pair {β : Type} :
    ∀ (m : List (String × β)) (k : String) (v : β), alookup m k = some v → (k, v) ∈ m
  | [], _, _, h => by simp [alookup] at h
  | (k1, v1) :: rest, k, v, h => by
      by_cases h1 : k1 = k
      · subst h1
        have : v1 = v := by simpa [alookup] using h
        subst this
        simp
      · simp only [alookup, if_neg h1] at h
        exact List.mem_cons_of_mem _ (alookup_mem_pair rest k v h)

/-- C6: EffectsEngine.tick_round.  A rounds-based active instance with more
than one round left is decremented by exactly 1 and stays listed; an
instance whose counter is at 1 (or below) reaches 0 in this tick and, in
the same tick, disappears from list_for_entity and every hook it owns is
unregistered atomically with the removal: its reverse-index entry is gone
and none of its hook ids remains in any scope bucket. -/
theorem effects_tick_round_spec (st : GameState) (reg : HooksRegistry) (eid : String)
    (inst : EffectInstance) (r : Int)
    (hmem : inst ∈ list_for_entity st eid)
    (hdur : inst.duration_type = "rounds") (hrem : inst.remaining_rounds = some r)
    (huniq : ∀ kv ∈ st.active_effects, ∀ j ∈ kv.2,
      j.instance_id = inst.instance_id → j = inst)
    (hnodup : (reg.parent_index.map Prod.fst).Nodup) :
    (r > 1 → { inst with remaining_rounds := some (r - 1) } ∈
        list_for_entity (effects_tick_round true st reg).1 eid) ∧
    (r ≤ 1 →
      (∀ j ∈ list_for_entity (effects_tick_round true st reg).1 eid,
         j.instance_id ≠ inst.instance_id) ∧
      alookup ((effects_tick_round true st reg).2.1).parent_index inst.instance_id = none ∧
      ∀ e ∈ (alookup reg.parent_index inst.instance_id).getD [],
        ∀ h ∈ bucketOf ((effects_tick_round true st reg).2.1) e.1 e.2.1,
          h.hook_id ≠ e.2.2) := by
  rcases halk : alookup st.active_effects eid with _ | lst
  · rw [list_for_entity, halk] at hmem
    simp at hmem
  · rw [list_for_entity, halk] at hmem
    simp only [Option.getD_some] at hmem
    have hpair : (eid, lst) ∈ st.active_effects := alookup_mem_pair _ _ _ halk
    obtain ⟨reg1, hout⟩ := tickEntries_alookup true st.active_effects reg eid lst halk
    have hlist : list_for_entity (effects_tick_round true st reg).1 eid =
        (effects_tick_list true lst reg1).1 := by
      rw [list_for_entity, effects_tick_round_list, hout]
      rfl
    constructor
    · intro hr
      rw [hlist]
      exact tick_list_decrement true inst r hdur hrem hr lst reg1 hmem
    · intro hr
      refine ⟨?_, ?_, ?_⟩
      · intro j hj hcon
        rw [hlist] at hj
        obtain ⟨i, hi, hideq, hnex⟩ := tick_list_ids true lst reg1 j hj
        have : i = inst := huniq (eid, lst) hpair i hi (by rw [← hideq, hcon])
        subst this
        apply hnex
        refine ⟨hdur, r, hrem, ?_⟩
        by_cases h0 : r > 0
        · rw [if_pos h0]; omega
        · rw [if_neg h0]; omega
      · rw [effects_tick_round_reg]
        have hflat : inst ∈ st.active_effects.flatMap (fun kv => kv.2) :=
          List.mem_flatMap.mpr ⟨(eid, lst), hpair, hmem⟩
        have huniq2 : ∀ i ∈ st.active_effects.flatMap (fun kv => kv.2),
            i.instance_id = inst.instance_id → i = inst := by
          intro i hi
          obtain ⟨kv, hkv, hin⟩ := List.mem_flatMap.mp hi
          exact huniq kv hkv i hin
        exact (tick_list_hooks inst r hdur hrem hr _ reg hflat huniq2 hnodup).1
      · intro e he h hbuck
        rw [effects_tick_round_reg] at hbuck
        have hflat : inst ∈ st.active_effects.flatMap (fun kv => kv.2) :=
          List.mem_flatMap.mpr ⟨(eid, lst), hpair, hmem⟩
        have huniq2 : ∀ i ∈ st.active_effects.flatMap (fun kv => kv.2),
            i.instance_id = inst.instance_id → i = inst := by
          intro i hi
          obtain ⟨kv, hkv, hin⟩ := List.mem_flatMap.mp hi
          exact huniq kv hkv i hin
        exact (tick_list_hooks inst r hdur hrem hr _ reg hflat huniq2 hnodup).2 e he h hbuck

/-- A bless instance with one round remaining, about to expire. -/
def weffInst : EffectInstance :=
  { instance_id := "ei1", definition_id := "eff.bless", name := "Bless",
    abilityType := "Spell", source_entity_id := "pc.hero", target_entity_id := "pc.hero",
    duration_type := "rounds", remaining_rounds := some 1 }

/-- The witness state carrying the expiring bless instance. -/
def wstateT : GameState := { player := wplayer, active_effects := [("pc.hero", [weffInst])] }

/-- A registry with one hook owned by the expiring instance. -/
def wregistry : HooksRegistry :=
  { by_scope := [("incoming.damage", [("pc.hero", [⟨"hk1", "incoming.damage", 0⟩])])],
    parent_index := [("ei1", [("incoming.damage", "pc.hero", "hk1")])] }

/-- Witness for C6: after one tick the 1-round instance is gone from the
entity's list and its reverse-index entry is removed. -/
theorem effects_tick_round_spec_witness :
    (∀ j ∈ list_for_entity (effects_tick_round true wstateT wregistry).1 "pc.hero",
       j.instance_id ≠ weffInst.instance_id) ∧
    alookup ((effects_tick_round true wstateT wregistry).2.1).parent_index
      weffInst.instance_id = none :=
  let h := (effects_tick_round_spec wstateT wregistry "pc.hero" weffInst 1
    (by decide) rfl rfl (by decide) (by decide)).2 (by decide)
  ⟨h.1, h.2.1⟩

/-! ## Claim C3: DR before vulnerability, once per attack -/

/-- A packet is subject to the chosen DR entry when it is a positive
physical packet the entry applies to. -/
def subjectB (best : DREntry) (p : DamagePacket) : Bool :=
  isPhys p ∧ dr_applies best p

theorem dr_applies_amount (best : DREntry) (p : DamagePacket) (x : Int) :
    dr_applies best { p with amount := x } = dr_applies best p := rfl

theorem foldl_add_amount :
    ∀ (l : List DamagePacket) (a : Int),
      l.foldl (fun s p => s + p.amount) a = a + l.foldl (fun s p => s + p.amount) 0
  | [], a => by simp
  | p :: rest, a => by
      simp only [List.foldl_cons]
      rw [foldl_add_amount rest (a + p.amount), foldl_add_amount rest (0 + p.amount)]
      ring

theorem subjectB_iff (best : DREntry) (p : DamagePacket) :
    subjectB best p = true ↔ (isPhys p = true ∧ dr_applies best p = true) := by
  simp [subjectB]

theorem isPhys_pos (p : DamagePacket) (h : isPhys p = true) : 0 < p.amount := by
  simp only [isPhys, Bool.and_eq_true, decide_eq_true_eq] at h
  exact h.2

theorem subjectSum_filter (best : DREntry) (l : List DamagePacket) :
    subjectSum best l = (l.filter (subjectB best)).foldl (fun s p => s + p.amount) 0 := rfl

theorem subjectSum_cons (best : DREntry) (p : DamagePacket) (rest : List DamagePacket) :
    subjectSum best (p :: rest) =
      (if subjectB best p = true then p.amount else 0) + subjectSum best rest := by
  rw [subjectSum_filter, subjectSum_filter, List.filter_cons]
  by_cases hs : subjectB best p = true
  · rw [if_pos hs, if_pos hs, List.foldl_cons, foldl_add_amount]
    simp
  · rw [if_neg hs, if_neg hs]
    simp

theorem subjectSum_nonneg (best : DREntry) :
    ∀ l : List DamagePacket, 0 ≤ subjectSum best l
  | [] => by simp [subjectSum]
  | p :: rest => by
      rw [subjectSum_cons]
      have h1 := subjectSum_nonneg best rest
      by_cases hs : subjectB best p = true
      · have hpos : 0 < p.amount := isPhys_pos p ((subjectB_iff best p).mp hs).1
        rw [if_pos hs]
        omega
      · rw [if_neg hs]
        omega

theorem subjectB_amount_pos (best : DREntry) (p : DamagePacket) (x : Int)
    (hs : subjectB best p = true) (hx : 0 < x) :
    subjectB best { p with amount := x } = true := by
  have h := (subjectB_iff best p).mp hs
  have hstart : strStartsWith p.dkind "physical." = true := by
    have h1 := h.1
    simp only [isPhys, decide_eq_true_eq] at h1
    exact h1.1
  refine (subjectB_iff _ _).mpr ⟨?_, ?_⟩
  · simp only [isPhys, decide_eq_true_eq]
    exact ⟨hstart, hx⟩
  · rw [dr_applies_amount]
    exact h.2

theorem subjectB_amount_zero (best : DREntry) (p : DamagePacket) :
    subjectB best { p with amount := 0 } = false := by
  simp [subjectB, isPhys]

theorem subjectSum_head (best : DREntry) (p : DamagePacket) (rest : List DamagePacket)
    (hs : subjectB best p = true) (x : Int) (hx : 0 ≤ x) :
    subjectSum best ({ p with amount := x } :: rest) = x + subjectSum best rest := by
  rw [subjectSum_cons]
  rcases lt_or_eq_of_le hx with hpos | hzero
  · rw [if_pos (subjectB_amount_pos best p x hs hpos)]
  · rw [← hzero, subjectB_amount_zero]
    simp

theorem drDistribute_zero (best : DREntry) (rem : Int) (h : rem ≤ 0) :
    ∀ l : List DamagePacket, drDistribute best rem l = l
  | [] => rfl
  | p :: rest => by simp only [drDistribute, if_pos h]

theorem drDistribute_sum (best : DREntry) :
    ∀ (ps : List DamagePacket) (rem : Int), 0 ≤ rem → rem ≤ subjectSum best ps →
      subjectSum best (drDistribute best rem ps) = subjectSum best ps - rem
  | [], rem, h0, h1 => by
      simp only [subjectSum, List.filter_nil, List.foldl_nil] at h1
      have he : drDistribute best rem [] = [] := rfl
      rw [he]
      simp only [subjectSum, List.filter_nil, List.foldl_nil]
      omega
  | p :: rest, rem, h0, h1 => by
      by_cases hz : rem ≤ 0
      · have hre : rem = 0 := le_antisymm hz h0
        subst hre
        rw [drDistribute_zero best 0 le_rfl]
        omega
      · simp only [drDistribute, if_neg hz]
        by_cases hs : subjectB best p = true
        · have hcond : isPhys p = true ∧ dr_applies best p = true := (subjectB_iff best p).mp hs
          rw [if_pos hcond]
          have hpamt : 0 < p.amount := isPhys_pos p hcond.1
          have hrest0 : 0 ≤ subjectSum best rest := subjectSum_nonneg best rest
          have h1' : rem ≤ p.amount + subjectSum best rest := by
            rw [subjectSum_cons, if_pos hs] at h1
            omega
          have htake0 : 0 ≤ rem - min p.amount rem := by omega
          have htake1 : rem - min p.amount rem ≤ subjectSum best rest := by omega
          have ih := drDistribute_sum best rest (rem - min p.amount rem) htake0 htake1
          rw [subjectSum_head best p _ hs _ (by omega), ih, subjectSum_cons, if_pos hs]
          omega
        · have hcond : ¬(isPhys p = true ∧ dr_applies best p = true) :=
            fun hc => hs ((subjectB_iff best p).mpr hc)
          rw [if_neg hcond]
          have h1' : rem ≤ subjectSum best rest := by
            rw [subjectSum_cons, if_neg hs] at h1
            omega
          rw [subjectSum_cons, subjectSum_cons, if_neg hs,
            drDistribute_sum best rest rem h0 h1']
          omega

theorem foldl_bestDr :
    ∀ (l : List DREntry) (d : DREntry),
      ((l.foldl (fun best x => if x.value > best.value then x else best) d) = d ∨
        (l.foldl (fun best x => if x.value > best.value then x else best) d) ∈ l) ∧
      d.value ≤ (l.foldl (fun best x => if x.value > best.value then x else best) d).value ∧
      ∀ x ∈ l, x.value ≤ (l.foldl (fun best x => if x.value > best.value then x else best) d).value
  | [], d => ⟨Or.inl rfl, le_refl _, by simp⟩
  | x :: xs, d => by
      simp only [List.foldl_cons]
      by_cases h : x.value > d.value
      · rw [if_pos h]
        obtain ⟨hmem, hle, hall⟩ := foldl_bestDr xs x
        refine ⟨?_, le_trans (le_of_lt h) hle, ?_⟩
        · rcases hmem with he | hm
          · exact Or.inr (by rw [he]; exact List.mem_cons_self _ _)
          · exact Or.inr (List.mem_cons_of_mem _ hm)
        · intro y hy
          rcases List.mem_cons.mp hy with rfl | hy'
          · exact hle
          · exact hall y hy'
      · rw [if_neg h]
        obtain ⟨hmem, hle, hall⟩ := foldl_bestDr xs d
        refine ⟨?_, hle, ?_⟩
        · rcases hmem with he | hm
          · exact Or.inl he
          · exact Or.inr (List.mem_cons_of_mem _ hm)
        · intro y hy
          rcases List.mem_cons.mp hy with rfl | hy'
          · push_neg at h
            exact le_trans h hle
          · exact hall y hy'

theorem bestDr_spec (l : List DREntry) (b : DREntry) (h : bestDr l = some b) :
    b ∈ l ∧ ∀ d ∈ l, d.value ≤ b.value := by
  cases l with
  | nil => simp [bestDr] at h
  | cons d rest =>
    simp only [bestDr, Option.some.injEq] at h
    subst h
    obtain ⟨hmem, hle, hall⟩ := foldl_bestDr rest d
    constructor
    · rcases hmem with he | hm
      · rw [he]
        exact List.mem_cons_self _ _
      · exact List.mem_cons_of_mem _ hm
    · intro x hx
      rcases List.mem_cons.mp hx with rfl | hx'
      · exact hle
      · exact hall x hx'

/-- The C3 scenario target: untyped DR 5 and a 1.5x vulnerability declared on the
same physical kind. -/
def drEnt : Entity :=
  { id := "pc.hero", name := "Hero", hp_max := 100, hp_current := 100,
    dr := [{ value := 5 }],
    vulnerabilities := [("physical.slashing", 3/2)] }

/-- The C3 scenario state. -/
def drState : GameState := { player := drEnt }

/-- The C3 scenario packet: a single 10-point slashing packet. -/
def drPacket : DamagePacket := { amount := 10, dkind := "physical.slashing" }

/-- A DR-only entity for the once-per-attack two-packet scenario. -/
def drEnt2 : Entity :=
  { id := "pc.hero", name := "Hero", hp_max := 100, hp_current := 100,
    dr := [{ value := 5 }] }

/-- The scenario packet after DR. -/
def drPacket5 : DamagePacket := { amount := 5, dkind := "physical.slashing" }

/-- The scenario packet after the vulnerability multiplier. -/
def drPacket8 : DamagePacket := { amount := 8, dkind := "physical.slashing" }

/-- A lower-valued DR entry for the selection witness. -/
def wdrLow : DREntry := { value := 2 }

/-- A higher-valued DR entry for the selection witness. -/
def wdrHigh : DREntry := { value := 5 }

/-- C3: damage reduction is computed before vulnerability multipliers and
applied once per attack.  (1) For the concrete scenario — a 10-point
physical.slashing packet against a target with untyped DR 5 and a 1.5x
vulnerability to the same kind — the pipeline deals 8 = round((10-5)*1.5)
hit points (hp 100 -> 92); (2) 8 is the DR-then-vulnerability order, while
the other order would give round(10*1.5)-5 = 10; (3) with two 6-point
physical packets under DR 5, the 5 points are subtracted from the packets
in order (6,6 -> 1,6), not per packet; (4) bestDr selects a
maximal-by-value entry of the applicable list; (5) whenever stage_dr
resolves a best entry with positive value and positive subject sum, the
total subject physical amount drops by exactly min(DR value, subject sum),
i.e. DR is charged once per attack across the subject packets. -/
theorem apply_packets_dr_before_vuln :
    ((apply_packets drState "pc.hero" [drPacket]).1.total_hp_damage = 8 ∧
     (apply_packets drState "pc.hero" [drPacket]).1.physical_damage_applied = 8 ∧
     (apply_packets drState "pc.hero" [drPacket]).2.player.hp_current = 92) ∧
    (pyRound (((10 : ℚ) - 5) * (3 / 2)) = 8 ∧ pyRound ((10 : ℚ) * (3 / 2)) - 5 = 10) ∧
    ((stage_dr drEnt2 [{ amount := 6, dkind := "physical.slashing" },
                       { amount := 6, dkind := "physical.piercing" }]).1 =
       [{ amount := 1, dkind := "physical.slashing" },
        { amount := 6, dkind := "physical.piercing" }]) ∧
    (∀ (l : List DREntry) (b : DREntry), bestDr l = some b →
       b ∈ l ∧ ∀ d ∈ l, d.value ≤ b.value) ∧
    (∀ (ent : Entity) (ps : List DamagePacket) (best : DREntry),
       bestDr (ent.dr.filter (fun dr => (ps.filter isPhys).any (dr_applies dr))) = some best →
       ps.filter isPhys ≠ [] → ent.dr ≠ [] →
       0 < best.value → 0 < subjectSum best ps →
       subjectSum best (stage_dr ent ps).1 =
         subjectSum best ps - min best.value (subjectSum best ps)) := by
  have hfr : Int.fract ((15 : ℚ) / 2) = 1 / 2 := by
    rw [Int.fract]
    norm_num
  have hfr15 : Int.fract ((15 : ℚ)) = 0 := by
    rw [Int.fract]
    norm_num
  refine ⟨?_, ⟨?_, ?_⟩, ?_, bestDr_spec, ?_⟩
  · have hent : damage_entity_by_id drState "pc.hero" = some drEnt := rfl
    have hA : stage_immunity drEnt [drPacket] = ([drPacket], []) := by decide
    have hB : (stage_resist drEnt [drPacket]).1 = [drPacket] := by decide
    have hC : (stage_dr drEnt [drPacket]).1 = [drPacket5] := by decide
    have hD : (stage_pools "pc.hero" [drPacket5] drState).1 = [drPacket5] := rfl
    have hD2 : (stage_pools "pc.hero" [drPacket5] drState).2.2 = drState := rfl
    have hE : (stage_vuln drEnt [drPacket5]).1 = [drPacket8] := by
      norm_num [stage_vuln, alookup, drEnt, drPacket5, drPacket8, pyRound, floorQ, hfr]
    have hF : (stage_commit drEnt [drPacket8]).1 = 8 := by decide
    have hF2 : (stage_commit drEnt [drPacket8]).2.2.2.hp_current = 92 := by decide
    have hG : ([drPacket8].filter (fun p => strStartsWith p.dkind "physical.")).foldl
        (fun s p => s + p.amount) 0 = 8 := by decide
    refine ⟨?_, ?_, ?_⟩ <;>
    simp [apply_packets, hent, hA, hB, hC, hD, hD2, hE, hF, hF2, hG]
  · norm_num [pyRound, floorQ, hfr]
  · norm_num [pyRound, floorQ, hfr15]
  · decide
  · intro ent ps best hbest hne hdr hbv hs
    have hcond : (ps.filter isPhys) ≠ [] ∧ ent.dr ≠ [] := ⟨hne, hdr⟩
    rw [stage_dr, if_pos hcond]
    simp only [hbest]
    rw [if_pos ⟨hs, hbv⟩]
    exact drDistribute_sum best ps _ (by omega) (min_le_right _ _)

/-- Witness for C3: the selection and once-per-attack conjuncts applied at
the concrete DR entries and the scenario packet. -/
theorem apply_packets_dr_before_vuln_witness :
    (bestDr [wdrLow, wdrHigh] = some wdrHigh ∧
     wdrHigh ∈ [wdrLow, wdrHigh] ∧ ∀ d ∈ [wdrLow, wdrHigh], d.value ≤ wdrHigh.value) ∧
    (bestDr (drEnt2.dr.filter
        (fun dr => (([drPacket] : List DamagePacket).filter isPhys).any (dr_applies dr))) =
        some { value := 5 } ∧
     ([drPacket] : List DamagePacket).filter isPhys ≠ [] ∧
     drEnt2.dr ≠ [] ∧
     (0 : Int) < ({ value := 5 } : DREntry).value ∧
     0 < subjectSum { value := 5 } [drPacket] ∧
     subjectSum { value := 5 } (stage_dr drEnt2 [drPacket]).1 =
       subjectSum { value := 5 } [drPacket] -
         min ({ value := 5 } : DREntry).value (subjectSum { value := 5 } [drPacket])) := by
  have h := apply_packets_dr_before_vuln
  have hb : bestDr [wdrLow, wdrHigh] = some wdrHigh := by decide
  have h1 : bestDr (drEnt2.dr.filter
      (fun dr => (([drPacket] : List DamagePacket).filter isPhys).any (dr_applies dr))) =
      some ({ value := 5 } : DREntry) := by decide
  have h2 : ([drPacket] : List DamagePacket).filter isPhys ≠ [] := by decide
  have h3 : drEnt2.dr ≠ [] := by decide
  have h4 : (0 : Int) < ({ value := 5 } : DREntry).value := by decide
  have h5 : (0 : Int) < subjectSum { value := 5 } [drPacket] := by decide
  have hsel := h.2.2.2.1 [wdrLow, wdrHigh] wdrHigh hb
  have honce := h.2.2.2.2 drEnt2 [drPacket] { value := 5 } h1 h2 h3 h4 h5
  exact ⟨⟨hb, hsel.1, hsel.2⟩, h1, h2, h3, h4, h5, honce⟩
